import Mathlib

/-!
# pulse: the configuration loader (`internal/config/config.go`)

A shallow embedding of the loader and proofs of its contract.

Modelling conventions.

* A Go `string` is a Lean `String`.  Go strings are byte sequences; the loader
  only compares them with literals, hands them to `strconv.Atoi` and to
  `strings.ToLower`.  Where the Go library walks the bytes of a string the
  model walks its code points: every byte of a multi-byte UTF-8 sequence is
  `>= 0x80`, hence neither a sign nor a digit nor an ASCII letter, so the two
  walks reject the same strings.  `len(s)` is `String.utf8ByteSize`.
* The process environment is what `os.LookupEnv` observes of it: a map from a
  variable name to its value when the variable is present.
* Go `int` is `Int` with the platform width (`IntSize`) made explicit; the
  64-bit `time.Duration` is an `Int` number of nanoseconds, wrapped explicitly.
* A Go `error` is an `Option String` (`none` is `nil`, `some m` carries the
  message of `fmt.Errorf(m)`); a `(value, error)` pair is an `Except`.
-/

set_option maxRecDepth 100000

namespace Pulse

/-! ## Data model -/

/-- Go struct `ServerConfig`. -/
structure ServerConfig where
  Port : String
  Env : String
  deriving DecidableEq, Repr

/-- Go struct `DatabaseConfig`. -/
structure DatabaseConfig where
  Host : String
  Port : Int
  User : String
  Password : String
  DBName : String
  SSLMode : String
  deriving DecidableEq, Repr

/-- Go struct `JWTConfig`; `Expiration` is a `time.Duration`, in nanoseconds. -/
structure JWTConfig where
  AccessSecret : String
  RefreshSecret : String
  Expiration : Int
  deriving DecidableEq, Repr

/-- Go struct `Config`. -/
structure Config where
  Server : ServerConfig
  Database : DatabaseConfig
  JWT : JWTConfig
  deriving DecidableEq, Repr

/-! ## Validation -/

/-- Go `validateConfig`: the first empty required field decides the error. -/
def validateConfig (config : Config) : Option String :=
  if config.Database.Host = "" then
    some "DB_HOST is required"
  else if config.Database.User = "" then
    some "DB_USER is required"
  else if config.Database.DBName = "" then
    some "DB_NAME is required"
  else if config.JWT.AccessSecret = "" then
    some "JWT_SECRET is required"
  else if config.JWT.RefreshSecret = "" then
    some "REFRESH_SECRET is required"
  else
    none

/-- Go method `(*Config).Validate`. -/
def Config.Validate (c : Config) : Option String :=
  validateConfig c

/-- The required fields of a record with the environment variable each one is
filled from, in the order of the data-model table of the specification. -/
def requiredFields (c : Config) : List (String × String) :=
  [("DB_HOST", c.Database.Host), ("DB_USER", c.Database.User),
   ("DB_NAME", c.Database.DBName), ("JWT_SECRET", c.JWT.AccessSecret),
   ("REFRESH_SECRET", c.JWT.RefreshSecret)]

/-- The specification of the validator's message: the variable of the first
empty required field, followed by ` is required`. -/
def firstMissingMessage (c : Config) : Option String :=
  ((requiredFields c).find? (fun p => p.2 = "")).map (fun p => p.1 ++ " is required")

/-! ## The environment and the string accessor -/

/-- The process environment, as `os.LookupEnv` observes it: the value of a
variable when it is present, `none` when it is absent. -/
abbrev Env := String → Option String

/-- The environment made of a list of `NAME=value` entries (the first entry of
a name is the one that counts). -/
def Env.ofList (entries : List (String × String)) : Env :=
  fun key => (entries.find? (fun p => p.1 = key)).map (fun p => p.2)

/-- Go `os.LookupEnv`: `some value` stands for `(value, true)`, `none` for
`("", false)`. -/
def LookupEnv (env : Env) (key : String) : Option String :=
  env key

/-- Go `getEnv`. -/
def getEnv (env : Env) (key defaultValue : String) : String :=
  match LookupEnv env key with
  | some value => value
  | none => defaultValue

/-! ## Machine integers -/

/-- The width of the Go `int` type of the platform (`strconv.IntSize`). -/
inductive IntSize where
  | bits32
  | bits64
  deriving DecidableEq, Repr

/-- The number of bits of the platform `int`. -/
def IntSize.bits : IntSize → Nat
  | .bits32 => 32
  | .bits64 => 64

/-- Conversion to a signed two-complement integer of `w` bits: what Go does on
overflow of signed arithmetic and on integer conversions. -/
def wrapInt (w : Nat) (z : Int) : Int :=
  (z + 2 ^ (w - 1)) % 2 ^ w - 2 ^ (w - 1)

/-- Conversion to `uint64`. -/
def wrapUint64 (n : Int) : Nat :=
  (n % 2 ^ 64).toNat

/-- A value is representable in the `int` of the platform. -/
def fitsInt (w : IntSize) (z : Int) : Prop :=
  -(2 ^ (w.bits - 1)) ≤ z ∧ z < 2 ^ (w.bits - 1)

instance (w : IntSize) (z : Int) : Decidable (fitsInt w z) := by
  unfold fitsInt; infer_instance

/-! ## `strconv.Atoi` (Go standard library), at base 10 and `bitSize` 0 -/

/-- The two causes of a `*strconv.NumError`: `ErrSyntax` and `ErrRange`. -/
inductive NumError where
  | ErrSyn
  | ErrRange
  deriving DecidableEq, Repr

/-- Go `strconv.lower`: `c | ('x' - 'X')`. -/
def lower (c : Nat) : Nat :=
  c ||| 0x20

/-- The loop of `strconv.ParseUint` for base 10: `n` is the `uint64`
accumulator, `maxVal` is `1<<bitSize - 1`.  The result is the pair
`(value, err)` the Go function returns. -/
def parseUintLoop (maxVal : Nat) : List Char → Nat → Nat × Option NumError
  | [], n => (n, none)
  | c :: cs, n =>
    let b := c.toNat
    let digit : Option Nat :=
      if 48 ≤ b ∧ b ≤ 57 then some (b - 48)
      else if 97 ≤ lower b ∧ lower b ≤ 122 then some (lower b - 97 + 10)
      else none
    match digit with
    | none => (0, some NumError.ErrSyn)
    | some d =>
      if d ≥ 10 then (0, some NumError.ErrSyn)
      else if n ≥ (2 ^ 64 - 1) / 10 + 1 then (maxVal, some NumError.ErrRange)
      else
        let n10 := (n * 10) % 2 ^ 64
        let n1 := (n10 + d) % 2 ^ 64
        if n1 < n10 ∨ n1 > maxVal then (maxVal, some NumError.ErrRange)
        else parseUintLoop maxVal cs n1

/-- Go `strconv.ParseUint(s, 10, 0)` on the code points `s`. -/
def ParseUint (w : IntSize) (s : List Char) : Nat × Option NumError :=
  if s = [] then (0, some NumError.ErrSyn)
  else parseUintLoop (wrapUint64 (2 ^ w.bits % 2 ^ 64 - 1)) s 0

/-- Go `strconv.ParseInt(s, 10, 0)` on the code points `s`. -/
def ParseInt (w : IntSize) (s : List Char) : Int × Option NumError :=
  if s = [] then (0, some NumError.ErrSyn)
  else
    let neg := s.head? = some '-'
    let s1 := if s.head? = some '+' ∨ s.head? = some '-' then s.tail else s
    let (un, err) := ParseUint w s1
    if err ≠ none ∧ err ≠ some NumError.ErrRange then (0, err)
    else
      let cutoff : Nat := 2 ^ (w.bits - 1)
      if ¬ neg ∧ un ≥ cutoff then ((cutoff : Int) - 1, some NumError.ErrRange)
      else if neg ∧ un > cutoff then (-(cutoff : Int), some NumError.ErrRange)
      else
        let n := wrapInt 64 un
        (if neg then wrapInt 64 (-n) else n, none)

/-- The loop of the fast path of `strconv.Atoi`: `ch -= '0'` is a byte
subtraction, which makes a byte below `'0'` larger than 9; `n` is an `int`. -/
def atoiFastLoop (w : IntSize) : List Char → Int → Option Int
  | [], n => some n
  | c :: cs, n =>
    let b := c.toNat
    if b < 48 ∨ b - 48 > 9 then none
    else atoiFastLoop w cs (wrapInt w.bits (n * 10 + ((b - 48 : Nat) : Int)))

/-- Go `strconv.Atoi`: the pair `(value, err)`. -/
def Atoi (w : IntSize) (s : String) : Int × Option NumError :=
  let sLen := s.utf8ByteSize
  if (w.bits = 32 ∧ (0 < sLen ∧ sLen < 10)) ∨ (w.bits = 64 ∧ (0 < sLen ∧ sLen < 19)) then
    let s0 := s.data
    let signed := s0.head? = some '-' ∨ s0.head? = some '+'
    let s1 := if signed then s0.tail else s0
    if signed ∧ s1.length < 1 then (0, some NumError.ErrSyn)
    else
      match atoiFastLoop w s1 0 with
      | none => (0, some NumError.ErrSyn)
      | some n => (if s0.head? = some '-' then wrapInt w.bits (-n) else n, none)
  else
    let (i64, err) := ParseInt w s.data
    (wrapInt w.bits i64, err)

/-! ## The integer and boolean accessors -/

/-- Go `getEnvAsInt`. -/
def getEnvAsInt (w : IntSize) (env : Env) (key : String) (defaultValue : Int) : Int :=
  let valueStr := getEnv env key ""
  if valueStr = "" then defaultValue
  else
    let (value, err) := Atoi w valueStr
    if err ≠ none then defaultValue
    else value

/-- Go `strconv.FormatBool`. -/
def FormatBool (b : Bool) : String :=
  if b then "true" else "false"

/-- Go `strings.ToLower`.  A string of ASCII bytes has its letters `A`..`Z`
moved to `a`..`z`; any other string is mapped code point by code point through
`unicode.ToLower`, which is the parameter `unicodeToLower`. -/
def ToLower (unicodeToLower : Char → Char) (s : String) : String :=
  if s.data.all (fun c => c.toNat < 0x80) then
    ⟨s.data.map (fun c => if 'A' ≤ c ∧ c ≤ 'Z' then Char.ofNat (c.toNat + 32) else c)⟩
  else
    ⟨s.data.map unicodeToLower⟩

/-- Go `getEnvAsBool`. -/
def getEnvAsBool (unicodeToLower : Char → Char) (env : Env) (key : String)
    (defaultValue : Bool) : Bool :=
  let valueStr := ToLower unicodeToLower (getEnv env key (FormatBool defaultValue))
  if valueStr = "true" ∨ valueStr = "1" ∨ valueStr = "yes" ∨ valueStr = "on" then true
  else if valueStr = "false" ∨ valueStr = "0" ∨ valueStr = "no" ∨ valueStr = "off" then false
  else defaultValue

/-! ## Assembly -/

/-- Go `time.Second`, in nanoseconds. -/
def Second : Int := 1000000000

/-- The record `LoadConfig` assembles before it validates it.
`time.Duration(x) * time.Second` is a 64-bit multiplication. -/
def assemble (w : IntSize) (env : Env) : Config :=
  { Server :=
      { Port := getEnv env "SERVER_PORT" "8080"
        Env := getEnv env "APP_ENV" "development" }
    Database :=
      { Host := getEnv env "DB_HOST" "localhost"
        Port := getEnvAsInt w env "DB_PORT" 5432
        User := getEnv env "DB_USER" "pulse_dev"
        Password := getEnv env "DB_PASSWORD" ""
        DBName := getEnv env "DB_NAME" "pulse"
        SSLMode := getEnv env "DB_SSL_MODE" "disable" }
    JWT :=
      { AccessSecret := getEnv env "JWT_SECRET" ""
        RefreshSecret := getEnv env "REFRESH_SECRET" ""
        Expiration :=
          wrapInt 64 (wrapInt 64 (getEnvAsInt w env "JWT_EXPIRATION" 86400) * Second) } }

/-- Go `LoadConfig`: `.ok config` stands for `(config, nil)`, `.error m` for
`(nil, err)` with `err.Error() = m`. -/
def LoadConfig (w : IntSize) (env : Env) : Except String Config :=
  let config := assemble w env
  match validateConfig config with
  | some err => .error err
  | none => .ok config

/-! ## Environment predicates -/

/-- Go method `(*Config).IsProduction`. -/
def Config.IsProduction (unicodeToLower : Char → Char) (c : Config) : Bool :=
  ToLower unicodeToLower c.Server.Env = "production"

/-- Go method `(*Config).IsDevelopment`. -/
def Config.IsDevelopment (unicodeToLower : Char → Char) (c : Config) : Bool :=
  ToLower unicodeToLower c.Server.Env = "development"

/-! ## Sample inputs -/

/-- A record whose required fields are all filled. -/
def sampleConfig : Config :=
  { Server := { Port := "8080", Env := "development" }
    Database :=
      { Host := "db", Port := 5432, User := "u", Password := "", DBName := "pulse",
        SSLMode := "disable" }
    JWT := { AccessSecret := "a", RefreshSecret := "b", Expiration := 86400 * Second } }

/-- The sample record with both `Database.Host` and `JWT.AccessSecret` emptied. -/
def sampleNoHostNoSecret : Config :=
  { sampleConfig with
    Database := { sampleConfig.Database with Host := "" }
    JWT := { sampleConfig.JWT with AccessSecret := "" } }

/-- Equality of load results is decidable. -/
instance : DecidableEq (Except String Config) := fun a b =>
  match a, b with
  | .error x, .error y =>
    if h : x = y then isTrue (by rw [h]) else isFalse (fun e => h (Except.error.inj e))
  | .ok x, .ok y =>
    if h : x = y then isTrue (by rw [h]) else isFalse (fun e => h (Except.ok.inj e))
  | .error _, .ok _ => isFalse (fun e => Except.noConfusion e)
  | .ok _, .error _ => isFalse (fun e => Except.noConfusion e)

/-- The environment in which no variable is set. -/
def envNone : Env := Env.ofList []

/-- Scenario S1: only the five required variables are set. -/
def envMinimal : Env :=
  Env.ofList [("DB_HOST", "db"), ("DB_USER", "u"), ("DB_NAME", "pulse"),
    ("JWT_SECRET", "a"), ("REFRESH_SECRET", "b")]

/-- Scenario S3: every variable is set. -/
def envFull : Env :=
  Env.ofList [("SERVER_PORT", "9000"), ("APP_ENV", "production"), ("DB_HOST", "db.internal"),
    ("DB_PORT", "6543"), ("DB_USER", "svc"), ("DB_PASSWORD", "pw"), ("DB_NAME", "pulse_prod"),
    ("DB_SSL_MODE", "require"), ("JWT_SECRET", "a"), ("REFRESH_SECRET", "b"),
    ("JWT_EXPIRATION", "3600")]

/-- Scenario S1 with `DB_PASSWORD` set to the empty string. -/
def envEmptyPassword : Env :=
  Env.ofList [("DB_HOST", "db"), ("DB_USER", "u"), ("DB_NAME", "pulse"),
    ("JWT_SECRET", "a"), ("REFRESH_SECRET", "b"), ("DB_PASSWORD", "")]

/-! ## Decimal literals (the specification of the integer accessor) -/

/-- A decimal digit, `0` to `9`. -/
def isDecDigit (c : Char) : Bool :=
  decide (48 ≤ c.toNat ∧ c.toNat ≤ 57)

/-- The number denoted by a run of decimal digits that continues the number
`n`. -/
def digitsValueFrom : List Char → Nat → Nat
  | [], n => n
  | c :: cs, n => digitsValueFrom cs (n * 10 + (c.toNat - 48))

/-- The number denoted by a run of decimal digits. -/
def digitsValue (ds : List Char) : Nat :=
  digitsValueFrom ds 0

/-- The characters of a string that follow its optional sign. -/
def literalDigits (s : String) : List Char :=
  match s.data with
  | [] => []
  | c :: cs => if c = '+' ∨ c = '-' then cs else c :: cs

/-- A base-10 signed integer literal: an optional `+` or `-`, then one or more
decimal digits, and nothing else. -/
def IsIntLiteral (s : String) : Prop :=
  literalDigits s ≠ [] ∧ (literalDigits s).all isDecDigit = true

instance (s : String) : Decidable (IsIntLiteral s) := by
  unfold IsIntLiteral; infer_instance

/-- The integer a literal denotes. -/
def literalValue (s : String) : Int :=
  if s.data.head? = some '-' then -(digitsValue (literalDigits s) : Int)
  else (digitsValue (literalDigits s) : Int)

/-- Scenario S1 with JWT_EXPIRATION=60. -/
def envExpiration60 : Env :=
  Env.ofList [("DB_HOST", "db"), ("DB_USER", "u"), ("DB_NAME", "pulse"),
    ("JWT_SECRET", "a"), ("REFRESH_SECRET", "b"), ("JWT_EXPIRATION", "60")]

/-- Scenario S1 with JWT_EXPIRATION=9223372037, a number of seconds whose
number of nanoseconds exceeds 64 bits. -/
def envExpirationHuge : Env :=
  Env.ofList [("DB_HOST", "db"), ("DB_USER", "u"), ("DB_NAME", "pulse"),
    ("JWT_SECRET", "a"), ("REFRESH_SECRET", "b"), ("JWT_EXPIRATION", "9223372037")]

/-- Scenario S1 with JWT_EXPIRATION=-1. -/
def envExpirationNegative : Env :=
  Env.ofList [("DB_HOST", "db"), ("DB_USER", "u"), ("DB_NAME", "pulse"),
    ("JWT_SECRET", "a"), ("REFRESH_SECRET", "b"), ("JWT_EXPIRATION", "-1")]

/-- Scenario S4: scenario S1 with DB_PORT=abc and JWT_EXPIRATION=xyz. -/
def envGarbage : Env :=
  Env.ofList [("DB_HOST", "db"), ("DB_USER", "u"), ("DB_NAME", "pulse"),
    ("JWT_SECRET", "a"), ("REFRESH_SECRET", "b"), ("DB_PORT", "abc"),
    ("JWT_EXPIRATION", "xyz")]

/-- The sample record with another environment label. -/
def sampleWithEnv (label : String) : Config :=
  { sampleConfig with Server := { sampleConfig.Server with Env := label } }

/-- The sample record with other values in the fields that are not required. -/
def sampleOtherOptional : Config :=
  { Server := { Port := "", Env := "staging" }
    Database :=
      { Host := "db", Port := -7, User := "u", Password := "pw", DBName := "pulse",
        SSLMode := "" }
    JWT := { AccessSecret := "a", RefreshSecret := "b", Expiration := -1 } }

/-- The environment that sets the two secrets and nothing else. -/
def envSecretsOnly : Env :=
  Env.ofList [("JWT_SECRET", "a"), ("REFRESH_SECRET", "b")]

/-! ## Letter case (the specification of the folding) -/

/-- The lower-case form of one ASCII character: `A`..`Z` move to `a`..`z`. -/
def asciiLower (c : Char) : Char :=
  if 'A' ≤ c ∧ c ≤ 'Z' then Char.ofNat (c.toNat + 32) else c

/-- What `unicode.ToLower` does on ASCII: it lower-cases the letters `A`..`Z`
and leaves every other ASCII character alone. -/
def LowersASCII (unicodeToLower : Char → Char) : Prop :=
  ∀ c : Char, c.toNat < 0x80 → unicodeToLower c = asciiLower c

/-- The case-folded form of a string: every character lower-cased. -/
def foldCase (unicodeToLower : Char → Char) (s : String) : String :=
  ⟨s.data.map unicodeToLower⟩

/-! ## Validation: theorems -/

/-- The validator accepts a record exactly when its five required fields are
filled. -/
theorem validateConfig_none_iff (c : Config) :
    validateConfig c = none ↔
      (c.Database.Host ≠ "" ∧ c.Database.User ≠ "" ∧ c.Database.DBName ≠ "" ∧
        c.JWT.AccessSecret ≠ "" ∧ c.JWT.RefreshSecret ≠ "") := by
  unfold validateConfig
  by_cases h1 : c.Database.Host = "" <;> by_cases h2 : c.Database.User = "" <;>
    by_cases h3 : c.Database.DBName = "" <;> by_cases h4 : c.JWT.AccessSecret = "" <;>
    by_cases h5 : c.JWT.RefreshSecret = "" <;> simp [h1, h2, h3, h4, h5]

/-- Loading succeeds exactly when the assembled record passes validation, and
then returns that record. -/
theorem LoadConfig_eq_ok_iff (w : IntSize) (env : Env) (c : Config) :
    LoadConfig w env = .ok c ↔ validateConfig (assemble w env) = none ∧ c = assemble w env := by
  cases h : validateConfig (assemble w env) with
  | none => simp [LoadConfig, h, eq_comm]
  | some m => simp [LoadConfig, h]

/-- Loading fails exactly when the assembled record fails validation, with the
message of the validator. -/
theorem LoadConfig_eq_error_iff (w : IntSize) (env : Env) (m : String) :
    LoadConfig w env = .error m ↔ validateConfig (assemble w env) = some m := by
  cases h : validateConfig (assemble w env) with
  | none => simp [LoadConfig, h]
  | some m2 => simp [LoadConfig, h]

/-- The string accessor on an absent variable. -/
theorem getEnv_of_none (env : Env) (key d : String) (h : LookupEnv env key = none) :
    getEnv env key d = d := by
  simp [getEnv, h]

/-- The string accessor on a present variable. -/
theorem getEnv_of_some (env : Env) (key d v : String) (h : LookupEnv env key = some v) :
    getEnv env key d = v := by
  simp [getEnv, h]

/-- The integer accessor on an absent variable. -/
theorem getEnvAsInt_of_none (w : IntSize) (env : Env) (key : String) (d : Int)
    (h : LookupEnv env key = none) : getEnvAsInt w env key d = d := by
  simp [getEnvAsInt, getEnv, h]

/-- The integer accessor on a present variable. -/
theorem getEnvAsInt_of_some (w : IntSize) (env : Env) (key v : String) (d : Int)
    (h : LookupEnv env key = some v) :
    getEnvAsInt w env key d =
      if v = "" then d else if (Atoi w v).2 ≠ none then d else (Atoi w v).1 := by
  simp [getEnvAsInt, getEnv, h]

/-- The literal `production` is its own lower-case form. -/
theorem ToLower_production (unicodeToLower : Char → Char) :
    ToLower unicodeToLower "production" = "production" := by
  rfl

/-- C1: `validateConfig`, and therefore `Config.Validate`, returns no error if
and only if `Database.Host`, `Database.User`, `Database.DBName`,
`JWT.AccessSecret` and `JWT.RefreshSecret` are all non-empty. -/
theorem validateConfig_eq_none_iff (c : Config) :
    (validateConfig c = none ↔
      (c.Database.Host ≠ "" ∧ c.Database.User ≠ "" ∧ c.Database.DBName ≠ "" ∧
        c.JWT.AccessSecret ≠ "" ∧ c.JWT.RefreshSecret ≠ "")) ∧
    (c.Validate = none ↔
      (c.Database.Host ≠ "" ∧ c.Database.User ≠ "" ∧ c.Database.DBName ≠ "" ∧
        c.JWT.AccessSecret ≠ "" ∧ c.JWT.RefreshSecret ≠ "")) := by
  exact ⟨validateConfig_none_iff c, validateConfig_none_iff c⟩

/-- C2: a failing validation reports `<VAR> is required` for the variable of
the first empty required field in the order DB_HOST, DB_USER, DB_NAME,
JWT_SECRET, REFRESH_SECRET: the validator agrees with the specification
`firstMissingMessage`, every error it returns is one of these five messages,
and each message is returned exactly when the fields before it are filled and
its own field is empty. -/
theorem validateConfig_first_missing (c : Config) :
    validateConfig c = firstMissingMessage c ∧
    (∀ m, validateConfig c = some m →
      ∃ p ∈ requiredFields c, p.2 = "" ∧ m = p.1 ++ " is required") ∧
    (c.Database.Host = "" → validateConfig c = some "DB_HOST is required") ∧
    (c.Database.Host ≠ "" → c.Database.User = "" →
      validateConfig c = some "DB_USER is required") ∧
    (c.Database.Host ≠ "" → c.Database.User ≠ "" → c.Database.DBName = "" →
      validateConfig c = some "DB_NAME is required") ∧
    (c.Database.Host ≠ "" → c.Database.User ≠ "" → c.Database.DBName ≠ "" →
      c.JWT.AccessSecret = "" → validateConfig c = some "JWT_SECRET is required") ∧
    (c.Database.Host ≠ "" → c.Database.User ≠ "" → c.Database.DBName ≠ "" →
      c.JWT.AccessSecret ≠ "" → c.JWT.RefreshSecret = "" →
      validateConfig c = some "REFRESH_SECRET is required") := by
  unfold validateConfig firstMissingMessage requiredFields
  by_cases h1 : c.Database.Host = "" <;> by_cases h2 : c.Database.User = "" <;>
    by_cases h3 : c.Database.DBName = "" <;> by_cases h4 : c.JWT.AccessSecret = "" <;>
    by_cases h5 : c.JWT.RefreshSecret = "" <;>
    simp [h1, h2, h3, h4, h5, List.find?]

/-- Witness of C2: with `Database.Host` and `JWT.AccessSecret` both empty the
message names DB_HOST. -/
theorem validateConfig_first_missing_witness :
    sampleNoHostNoSecret.Database.Host = "" ∧ sampleNoHostNoSecret.JWT.AccessSecret = "" ∧
    validateConfig sampleNoHostNoSecret = some "DB_HOST is required" :=
  ⟨by decide, by decide, (validateConfig_first_missing sampleNoHostNoSecret).2.2.1 (by decide)⟩

/-! ## Loading: theorems -/

/-- Counterexample to C3 as stated: in the environment that sets no variable at
all the five required variables are unset, and the failure of `LoadConfig`
names JWT_SECRET, not DB_HOST. -/
theorem LoadConfig_all_unset_not_DB_HOST :
    (LookupEnv envNone "DB_HOST" = none ∧ LookupEnv envNone "DB_USER" = none ∧
      LookupEnv envNone "DB_NAME" = none ∧ LookupEnv envNone "JWT_SECRET" = none ∧
      LookupEnv envNone "REFRESH_SECRET" = none) ∧
    LoadConfig .bits64 envNone = .error "JWT_SECRET is required" ∧
    LoadConfig .bits64 envNone ≠ .error "DB_HOST is required" := by
  decide

/-- C3 (amended): when none of DB_HOST, DB_USER, DB_NAME, JWT_SECRET and
REFRESH_SECRET is set, `LoadConfig` fails and the failure names JWT_SECRET:
the three database fields take their non-empty defaults, so the first empty
required field is the access secret. -/
theorem LoadConfig_all_unset (w : IntSize) (env : Env)
    (hHost : LookupEnv env "DB_HOST" = none) (hUser : LookupEnv env "DB_USER" = none)
    (hName : LookupEnv env "DB_NAME" = none) (hSecret : LookupEnv env "JWT_SECRET" = none)
    (_hRefresh : LookupEnv env "REFRESH_SECRET" = none) :
    LoadConfig w env = .error "JWT_SECRET is required" := by
  rw [LoadConfig_eq_error_iff]
  simp [validateConfig, assemble, getEnv_of_none, hHost, hUser, hName, hSecret]

/-- Witness of C3 (amended), on 32-bit and with no variable set. -/
theorem LoadConfig_all_unset_witness :
    LoadConfig .bits32 envNone = .error "JWT_SECRET is required" :=
  LoadConfig_all_unset .bits32 envNone (by decide) (by decide) (by decide) (by decide)
    (by decide)

/-- C4: a record returned by `LoadConfig` has non-empty `Database.Host`,
`Database.User`, `Database.DBName`, `JWT.AccessSecret` and
`JWT.RefreshSecret`, and `Validate` returns no error on it. -/
theorem LoadConfig_ok_required_filled (w : IntSize) (env : Env) (c : Config)
    (h : LoadConfig w env = .ok c) :
    (c.Database.Host ≠ "" ∧ c.Database.User ≠ "" ∧ c.Database.DBName ≠ "" ∧
      c.JWT.AccessSecret ≠ "" ∧ c.JWT.RefreshSecret ≠ "") ∧
    c.Validate = none := by
  obtain ⟨hv, hc⟩ := (LoadConfig_eq_ok_iff w env c).mp h
  subst hc
  exact ⟨(validateConfig_none_iff _).mp hv, hv⟩

/-- Witness of C4: the record loaded from scenario S1. -/
theorem LoadConfig_ok_required_filled_witness :
    LoadConfig .bits64 envMinimal = .ok sampleConfig ∧
    (sampleConfig.Database.Host ≠ "" ∧ sampleConfig.Database.User ≠ "" ∧
      sampleConfig.Database.DBName ≠ "" ∧ sampleConfig.JWT.AccessSecret ≠ "" ∧
      sampleConfig.JWT.RefreshSecret ≠ "") ∧
    sampleConfig.Validate = none :=
  ⟨by decide, LoadConfig_ok_required_filled .bits64 envMinimal sampleConfig (by decide)⟩

/-- C5: when the five required variables are set to non-empty strings and none
of SERVER_PORT, APP_ENV, DB_PORT, DB_PASSWORD, DB_SSL_MODE, JWT_EXPIRATION is
set, `LoadConfig` succeeds with the required fields as given and every other
field at its default: port `8080`, label `development`, database port 5432,
empty password, SSL mode `disable`, expiration 86400 seconds. -/
theorem LoadConfig_defaults (w : IntSize) (env : Env) (host user name access refresh : String)
    (hHost : LookupEnv env "DB_HOST" = some host) (hUser : LookupEnv env "DB_USER" = some user)
    (hName : LookupEnv env "DB_NAME" = some name)
    (hAccess : LookupEnv env "JWT_SECRET" = some access)
    (hRefresh : LookupEnv env "REFRESH_SECRET" = some refresh)
    (hHost0 : host ≠ "") (hUser0 : user ≠ "") (hName0 : name ≠ "") (hAccess0 : access ≠ "")
    (hRefresh0 : refresh ≠ "")
    (hPort : LookupEnv env "SERVER_PORT" = none) (hEnv : LookupEnv env "APP_ENV" = none)
    (hDBPort : LookupEnv env "DB_PORT" = none) (hPassword : LookupEnv env "DB_PASSWORD" = none)
    (hSSL : LookupEnv env "DB_SSL_MODE" = none)
    (hExp : LookupEnv env "JWT_EXPIRATION" = none) :
    LoadConfig w env = .ok
      { Server := { Port := "8080", Env := "development" }
        Database :=
          { Host := host, Port := 5432, User := user, Password := "", DBName := name,
            SSLMode := "disable" }
        JWT :=
          { AccessSecret := access, RefreshSecret := refresh,
            Expiration := 86400 * 1000000000 } } := by
  have hA : assemble w env =
      { Server := { Port := "8080", Env := "development" }
        Database :=
          { Host := host, Port := 5432, User := user, Password := "", DBName := name,
            SSLMode := "disable" }
        JWT :=
          { AccessSecret := access, RefreshSecret := refresh,
            Expiration := 86400 * 1000000000 } } := by
    simp only [assemble, getEnv_of_none _ _ _ hPort, getEnv_of_none _ _ _ hEnv,
      getEnv_of_none _ _ _ hPassword, getEnv_of_none _ _ _ hSSL,
      getEnv_of_some _ _ _ _ hHost, getEnv_of_some _ _ _ _ hUser, getEnv_of_some _ _ _ _ hName,
      getEnv_of_some _ _ _ _ hAccess, getEnv_of_some _ _ _ _ hRefresh,
      getEnvAsInt_of_none _ _ _ _ hDBPort, getEnvAsInt_of_none _ _ _ _ hExp]
    have : wrapInt 64 (wrapInt 64 86400 * Second) = 86400 * 1000000000 := by decide
    rw [this]
  rw [LoadConfig_eq_ok_iff, hA]
  exact ⟨(validateConfig_none_iff _).mpr ⟨hHost0, hUser0, hName0, hAccess0, hRefresh0⟩, rfl⟩

/-- Witness of C5: scenario S1 (DB_HOST=db, DB_USER=u, DB_NAME=pulse,
JWT_SECRET=a, REFRESH_SECRET=b). -/
theorem LoadConfig_defaults_witness :
    LoadConfig .bits64 envMinimal = .ok
      { Server := { Port := "8080", Env := "development" }
        Database :=
          { Host := "db", Port := 5432, User := "u", Password := "", DBName := "pulse",
            SSLMode := "disable" }
        JWT := { AccessSecret := "a", RefreshSecret := "b", Expiration := 86400 * 1000000000 } } :=
  LoadConfig_defaults .bits64 envMinimal "db" "u" "pulse" "a" "b" (by decide) (by decide)
    (by decide) (by decide) (by decide) (by decide) (by decide) (by decide) (by decide)
    (by decide) (by decide) (by decide) (by decide) (by decide) (by decide) (by decide)

/-- C6: every field of a record returned by `LoadConfig` is the value of its
accessor on the environment, with the name and the default of the data-model
table; in particular, when SERVER_PORT=9000, APP_ENV=production, DB_PORT=6543
and JWT_EXPIRATION=3600, the record has port `9000`, is a production record,
has database port 6543 and an expiration of 3600 seconds. -/
theorem LoadConfig_ok_fields (unicodeToLower : Char → Char) (w : IntSize) (env : Env)
    (c : Config) (h : LoadConfig w env = .ok c) :
    (c.Server.Port = getEnv env "SERVER_PORT" "8080" ∧
      c.Server.Env = getEnv env "APP_ENV" "development" ∧
      c.Database.Host = getEnv env "DB_HOST" "localhost" ∧
      c.Database.Port = getEnvAsInt w env "DB_PORT" 5432 ∧
      c.Database.User = getEnv env "DB_USER" "pulse_dev" ∧
      c.Database.Password = getEnv env "DB_PASSWORD" "" ∧
      c.Database.DBName = getEnv env "DB_NAME" "pulse" ∧
      c.Database.SSLMode = getEnv env "DB_SSL_MODE" "disable" ∧
      c.JWT.AccessSecret = getEnv env "JWT_SECRET" "" ∧
      c.JWT.RefreshSecret = getEnv env "REFRESH_SECRET" "") ∧
    (LookupEnv env "SERVER_PORT" = some "9000" → LookupEnv env "APP_ENV" = some "production" →
      LookupEnv env "DB_PORT" = some "6543" → LookupEnv env "JWT_EXPIRATION" = some "3600" →
      c.Server.Port = "9000" ∧ c.IsProduction unicodeToLower = true ∧
        c.Database.Port = 6543 ∧ c.JWT.Expiration = 3600 * 1000000000) := by
  obtain ⟨_, hc⟩ := (LoadConfig_eq_ok_iff w env c).mp h
  subst hc
  refine ⟨⟨rfl, rfl, rfl, rfl, rfl, rfl, rfl, rfl, rfl, rfl⟩, ?_⟩
  intro hPort hEnv hDBPort hExp
  refine ⟨?_, ?_, ?_, ?_⟩
  · simp [assemble, getEnv_of_some _ _ _ _ hPort]
  · simp [Config.IsProduction, assemble, getEnv_of_some _ _ _ _ hEnv, ToLower_production]
  · simp only [assemble, getEnvAsInt_of_some _ _ _ _ _ hDBPort]
    cases w <;> decide
  · simp only [assemble, getEnvAsInt_of_some _ _ _ _ _ hExp]
    cases w <;> decide

/-- Witness of C6: scenario S3 loads, as a production record on port `9000`
with database port 6543 and an expiration of 3600 seconds. -/
theorem LoadConfig_ok_fields_witness :
    (LoadConfig .bits64 envFull).isOk = true ∧
    (assemble .bits64 envFull).Server.Port = "9000" ∧
    (assemble .bits64 envFull).IsProduction id = true ∧
    (assemble .bits64 envFull).Database.Port = 6543 ∧
    (assemble .bits64 envFull).JWT.Expiration = 3600 * 1000000000 :=
  ⟨by decide,
    (LoadConfig_ok_fields id .bits64 envFull (assemble .bits64 envFull) (by decide)).2
      (by decide) (by decide) (by decide) (by decide)⟩

/-- C7: `getEnv` returns the value of a variable that is present, the empty
string included, and the default when the variable is absent; so a load with
DB_PASSWORD set to the empty string has an empty `Database.Password`, and a
string-typed variable set to the empty string fills its field with the empty
string, not with the default. -/
theorem getEnv_presence (w : IntSize) (env : Env) (key defaultValue : String) :
    (∀ v, LookupEnv env key = some v → getEnv env key defaultValue = v) ∧
    (LookupEnv env key = some "" → getEnv env key defaultValue = "") ∧
    (LookupEnv env key = none → getEnv env key defaultValue = defaultValue) ∧
    (getEnv env key defaultValue ≠ defaultValue → LookupEnv env key ≠ none) ∧
    (∀ c, LoadConfig w env = .ok c → LookupEnv env "DB_PASSWORD" = some "" →
      c.Database.Password = "") ∧
    (LookupEnv env "SERVER_PORT" = some "" → (assemble w env).Server.Port = "") ∧
    (LookupEnv env "APP_ENV" = some "" → (assemble w env).Server.Env = "") ∧
    (LookupEnv env "DB_HOST" = some "" → (assemble w env).Database.Host = "") ∧
    (LookupEnv env "DB_USER" = some "" → (assemble w env).Database.User = "") ∧
    (LookupEnv env "DB_PASSWORD" = some "" → (assemble w env).Database.Password = "") ∧
    (LookupEnv env "DB_NAME" = some "" → (assemble w env).Database.DBName = "") ∧
    (LookupEnv env "DB_SSL_MODE" = some "" → (assemble w env).Database.SSLMode = "") ∧
    (LookupEnv env "JWT_SECRET" = some "" → (assemble w env).JWT.AccessSecret = "") ∧
    (LookupEnv env "REFRESH_SECRET" = some "" → (assemble w env).JWT.RefreshSecret = "") := by
  refine ⟨fun v hv => getEnv_of_some _ _ _ _ hv, fun hv => getEnv_of_some _ _ _ _ hv,
    fun hv => getEnv_of_none _ _ _ hv, ?_, ?_, ?_, ?_, ?_, ?_, ?_, ?_, ?_, ?_, ?_⟩
  · intro hne hnone
    exact hne (getEnv_of_none _ _ _ hnone)
  · intro c hc hp
    obtain ⟨_, hc⟩ := (LoadConfig_eq_ok_iff w env c).mp hc
    subst hc
    exact getEnv_of_some _ _ _ _ hp
  all_goals
    intro hv
    exact getEnv_of_some _ _ _ _ hv

/-- Witness of C7: scenario S1 with DB_PASSWORD set to the empty string loads
with an empty password. -/
theorem getEnv_presence_witness :
    LookupEnv envEmptyPassword "DB_PASSWORD" = some "" ∧
    (LoadConfig .bits64 envEmptyPassword).isOk = true ∧
    getEnv envEmptyPassword "DB_PASSWORD" "secret" = "" ∧
    (assemble .bits64 envEmptyPassword).Database.Password = "" :=
  ⟨by decide, by decide,
    (getEnv_presence .bits64 envEmptyPassword "DB_PASSWORD" "secret").2.1 (by decide),
    (getEnv_presence .bits64 envEmptyPassword "DB_PASSWORD" "secret").2.2.2.2.1
      (assemble .bits64 envEmptyPassword) (by decide) (by decide)⟩

/-! ## Machine integers: lemmas -/

/-- A value that fits the platform `int` is unchanged by the conversion to it. -/
theorem wrapInt_of_fitsInt (w : IntSize) (z : Int) (h : fitsInt w z) :
    wrapInt w.bits z = z := by
  cases w <;> simp only [fitsInt, IntSize.bits, wrapInt] at * <;> norm_num at * <;> omega

/-- A run of digits continues a number upwards. -/
theorem le_digitsValueFrom (ds : List Char) (n : Nat) : n ≤ digitsValueFrom ds n := by
  induction ds generalizing n with
  | nil => simp [digitsValueFrom]
  | cons c cs ih =>
    have := ih (n * 10 + (c.toNat - 48))
    simp only [digitsValueFrom]
    omega

/-- A run of `k` decimal digits continues `n` to a number below
`(n + 1) * 10 ^ k`. -/
theorem digitsValueFrom_lt (ds : List Char) (n : Nat) (h : ds.all isDecDigit = true) :
    digitsValueFrom ds n + 1 ≤ (n + 1) * 10 ^ ds.length := by
  induction ds generalizing n with
  | nil => simp [digitsValueFrom]
  | cons c cs ih =>
    simp only [List.all_cons, Bool.and_eq_true] at h
    have hc : 48 ≤ c.toNat ∧ c.toNat ≤ 57 := by simpa [isDecDigit] using h.1
    have h1 := ih (n * 10 + (c.toNat - 48)) h.2
    have h2 : (n * 10 + (c.toNat - 48) + 1) * 10 ^ cs.length ≤ (n * 10 + 10) * 10 ^ cs.length :=
      Nat.mul_le_mul_right _ (by omega)
    have h3 : (n * 10 + 10) * 10 ^ cs.length = (n + 1) * 10 ^ (cs.length + 1) := by ring
    simp only [digitsValueFrom, List.length_cons]
    omega

/-- The fast loop of `Atoi` computes the value of a run of digits and rejects
anything else, as long as the run is short enough not to overflow. -/
theorem atoiFastLoop_eq (w : IntSize) (ds : List Char) (n : Nat)
    (hb : (n + 1) * 10 ^ ds.length ≤ 2 ^ (w.bits - 1)) :
    atoiFastLoop w ds (n : Int) =
      if ds.all isDecDigit = true then some ((digitsValueFrom ds n : Nat) : Int) else none := by
  induction ds generalizing n with
  | nil => simp [atoiFastLoop, digitsValueFrom]
  | cons c cs ih =>
    simp only [atoiFastLoop, digitsValueFrom, List.all_cons, Bool.and_eq_true]
    by_cases hc : c.toNat < 48 ∨ c.toNat - 48 > 9
    · have hd : isDecDigit c = false := by
        simp only [isDecDigit, decide_eq_false_iff_not]; omega
      simp [hc, hd]
    · have hd : isDecDigit c = true := by
        simp only [isDecDigit, decide_eq_true_eq]; omega
      have h2 : (n * 10 + (c.toNat - 48) + 1) * 10 ^ cs.length ≤ (n * 10 + 10) * 10 ^ cs.length :=
        Nat.mul_le_mul_right _ (by omega)
      have h3 : (n * 10 + 10) * 10 ^ cs.length = (n + 1) * 10 ^ (cs.length + 1) := by ring
      have hb2 : (n * 10 + (c.toNat - 48) + 1) * 10 ^ cs.length ≤ 2 ^ (w.bits - 1) := by
        simp only [List.length_cons] at hb; omega
      have hpos : 1 ≤ 10 ^ cs.length := Nat.one_le_pow _ _ (by norm_num)
      have hlt : n * 10 + (c.toNat - 48) + 1 ≤ 2 ^ (w.bits - 1) :=
        le_trans (Nat.le_mul_of_pos_right _ hpos) hb2
      have hw : wrapInt w.bits ((n : Int) * 10 + ((c.toNat - 48 : Nat) : Int)) =
          ((n * 10 + (c.toNat - 48) : Nat) : Int) := by
        rw [wrapInt_of_fitsInt]
        · push_cast; rfl
        · constructor
          · have : (0 : Int) ≤ (2 : Int) ^ (w.bits - 1) := by positivity
            omega
          · have : ((n * 10 + (c.toNat - 48) + 1 : Nat) : Int) ≤ ((2 ^ (w.bits - 1) : Nat) : Int) :=
              Int.ofNat_le.mpr hlt
            push_cast at this
            omega
      simp only [hc, if_false, hw, hd, true_and]
      exact ih _ hb2


/-- One step of the loop of `ParseUint` on a decimal digit. -/
theorem parseUintLoop_cons_digit (maxVal : Nat) (c : Char) (cs : List Char) (n : Nat)
    (hc : 48 ≤ c.toNat ∧ c.toNat ≤ 57) :
    parseUintLoop maxVal (c :: cs) n =
      if n ≥ 1844674407370955162 then (maxVal, some NumError.ErrRange)
      else if (n * 10 % 18446744073709551616 + (c.toNat - 48)) % 18446744073709551616 <
            n * 10 % 18446744073709551616 ∨
          (n * 10 % 18446744073709551616 + (c.toNat - 48)) % 18446744073709551616 > maxVal then
        (maxVal, some NumError.ErrRange)
      else
        parseUintLoop maxVal cs
          ((n * 10 % 18446744073709551616 + (c.toNat - 48)) % 18446744073709551616) := by
  have hlt : ¬ (c.toNat - 48 ≥ 10) := by omega
  have hcut : (2 ^ 64 - 1) / 10 + 1 = 1844674407370955162 := by norm_num
  have h64 : 2 ^ 64 = 18446744073709551616 := by norm_num
  simp only [parseUintLoop, hc, and_self, if_true, hlt, if_false, hcut, h64]

/-- One step of the loop of `ParseUint` on anything but a decimal digit. -/
theorem parseUintLoop_cons_other (maxVal : Nat) (c : Char) (cs : List Char) (n : Nat)
    (hc : ¬ (48 ≤ c.toNat ∧ c.toNat ≤ 57)) :
    parseUintLoop maxVal (c :: cs) n = (0, some NumError.ErrSyn) := by
  simp only [parseUintLoop, hc, if_false]
  by_cases hl : 97 ≤ lower c.toNat ∧ lower c.toNat ≤ 122
  · have : lower c.toNat - 97 + 10 ≥ 10 := by omega
    simp [hl, this]
  · simp [hl]


/-- The largest value `ParseUint` accepts is the largest unsigned integer of
the platform width. -/
theorem maxVal_eq (w : IntSize) : wrapUint64 (2 ^ w.bits % 2 ^ 64 - 1) = 2 ^ w.bits - 1 := by
  cases w <;> decide

/-- The loop of `ParseUint`, with the two failures told apart. -/
theorem parseUintLoop_cases (maxVal : Nat) (hmax : maxVal < 18446744073709551616)
    (ds : List Char) (n : Nat) (hn : n ≤ maxVal) :
    ((ds.all isDecDigit = true ∧ digitsValueFrom ds n ≤ maxVal) ∧
        parseUintLoop maxVal ds n = (digitsValueFrom ds n, none)) ∨
      (¬ (ds.all isDecDigit = true ∧ digitsValueFrom ds n ≤ maxVal) ∧
        (parseUintLoop maxVal ds n = (0, some NumError.ErrSyn) ∨
          parseUintLoop maxVal ds n = (maxVal, some NumError.ErrRange))) := by
  induction ds generalizing n with
  | nil => left; simp [parseUintLoop, digitsValueFrom, hn]
  | cons c cs ih =>
    have hge := le_digitsValueFrom cs (n * 10 + (c.toNat - 48))
    by_cases hc : 48 ≤ c.toNat ∧ c.toNat ≤ 57
    · have hd : isDecDigit c = true := by
        simp only [isDecDigit, decide_eq_true_eq]; exact hc
      have hall : (c :: cs).all isDecDigit = cs.all isDecDigit := by
        simp only [List.all_cons, hd, Bool.true_and]
      have hval : digitsValueFrom (c :: cs) n = digitsValueFrom cs (n * 10 + (c.toNat - 48)) := rfl
      rw [parseUintLoop_cons_digit maxVal c cs n hc, hall, hval]
      by_cases h1 : n ≥ 1844674407370955162
      · right
        rw [if_pos h1]
        exact ⟨by omega, Or.inr rfl⟩
      · rw [if_neg h1]
        have e1 : n * 10 % 18446744073709551616 = n * 10 := Nat.mod_eq_of_lt (by omega)
        rw [e1]
        by_cases h2 : n * 10 + (c.toNat - 48) < 18446744073709551616
        · have e2 : (n * 10 + (c.toNat - 48)) % 18446744073709551616 = n * 10 + (c.toNat - 48) :=
            Nat.mod_eq_of_lt h2
          rw [e2]
          by_cases h3 : n * 10 + (c.toNat - 48) > maxVal
          · right
            rw [if_pos (Or.inr h3)]
            exact ⟨by omega, Or.inr rfl⟩
          · rw [if_neg (by omega)]
            exact ih (n * 10 + (c.toNat - 48)) (by omega)
        · right
          rw [if_pos (Or.inl (by omega))]
          exact ⟨by omega, Or.inr rfl⟩
    · right
      have hd : isDecDigit c = false := by
        simp only [isDecDigit, decide_eq_false_iff_not]; exact hc
      rw [parseUintLoop_cons_other maxVal c cs n hc]
      exact ⟨by simp [hd], Or.inl rfl⟩

/-- The outcomes of `ParseUint`: the value of a non-empty run of digits that
fits the platform width, or else a syntax error, or a range error with the
largest value. -/
theorem ParseUint_cases (w : IntSize) (ds : List Char) :
    ((ds ≠ [] ∧ ds.all isDecDigit = true ∧ digitsValue ds ≤ 2 ^ w.bits - 1) ∧
        ParseUint w ds = (digitsValue ds, none)) ∨
      (¬ (ds ≠ [] ∧ ds.all isDecDigit = true ∧ digitsValue ds ≤ 2 ^ w.bits - 1) ∧
        (ParseUint w ds = (0, some NumError.ErrSyn) ∨
          ParseUint w ds = (2 ^ w.bits - 1, some NumError.ErrRange))) := by
  by_cases hds : ds = []
  · right
    simp [ParseUint, hds]
  · have hmax : 2 ^ w.bits - 1 < 18446744073709551616 := by cases w <;> decide
    simp only [ParseUint, hds, if_false, maxVal_eq, digitsValue]
    rcases parseUintLoop_cases (2 ^ w.bits - 1) hmax ds 0 (Nat.zero_le _) with
      ⟨⟨h1, h2⟩, h3⟩ | ⟨h1, h2⟩
    · left; exact ⟨⟨hds, h1, h2⟩, h3⟩
    · right
      exact ⟨fun h => h1 h.2, h2⟩


/-- The conversion to `int64` keeps a natural number below `2 ^ 63`. -/
theorem wrapInt64_natCast (v : Nat) (h : v < 9223372036854775808) :
    wrapInt 64 (v : Int) = (v : Int) := by
  simp only [wrapInt]; norm_num; omega

/-- Negating, in `int64`, the conversion of a natural number up to `2 ^ 63`
gives its opposite: `2 ^ 63` itself converts to `-2 ^ 63`, its own opposite. -/
theorem wrapInt64_neg_natCast (v : Nat) (h : v ≤ 9223372036854775808) :
    wrapInt 64 (-(wrapInt 64 (v : Int))) = -(v : Int) := by
  simp only [wrapInt]; norm_num; omega

/-- The powers of two of the two platform widths. -/
theorem IntSize.pow_bits (w : IntSize) :
    (w = .bits32 ∧ 2 ^ w.bits = 4294967296 ∧ 2 ^ (w.bits - 1) = 2147483648) ∨
    (w = .bits64 ∧ 2 ^ w.bits = 18446744073709551616 ∧ 2 ^ (w.bits - 1) = 9223372036854775808) := by
  cases w
  · left; exact ⟨rfl, by decide, by decide⟩
  · right; exact ⟨rfl, by decide, by decide⟩

/-- `ParseInt` on a minus sign followed by `cs`: the opposite of the value of
`cs` when `cs` is a non-empty run of digits of value at most `2 ^ (bits - 1)`,
an error otherwise. -/
theorem ParseInt_minus (w : IntSize) (cs : List Char) :
    ((cs ≠ [] ∧ cs.all isDecDigit = true ∧ digitsValue cs ≤ 2 ^ (w.bits - 1)) ∧
      ParseInt w ('-' :: cs) = (-(digitsValue cs : Int), none)) ∨
    (¬ (cs ≠ [] ∧ cs.all isDecDigit = true ∧ digitsValue cs ≤ 2 ^ (w.bits - 1)) ∧
      (ParseInt w ('-' :: cs)).2 ≠ none) := by
  simp only [ParseInt, List.head?, List.tail, reduceCtorEq, if_false, or_true, if_true,
    not_true, false_and, true_and]
  rcases ParseUint_cases w cs with ⟨⟨h1, h2, h3⟩, h4⟩ | ⟨h1, h2 | h2⟩
  · rw [h4]
    simp only [ne_eq, not_true, false_and, if_false]
    by_cases h5 : digitsValue cs > 2 ^ (w.bits - 1)
    · right
      simp only [h5, if_true]
      exact ⟨by omega, by simp⟩
    · left
      simp only [h5, if_false]
      refine ⟨⟨h1, h2, by omega⟩, ?_⟩
      rw [wrapInt64_neg_natCast]
      rcases w.pow_bits with ⟨_, _, h6⟩ | ⟨_, _, h6⟩ <;> omega
  · right
    rw [h2]
    refine ⟨?_, by simp⟩
    intro h; apply h1
    refine ⟨h.1, h.2.1, ?_⟩
    rcases w.pow_bits with ⟨_, h6, h7⟩ | ⟨_, h6, h7⟩ <;> omega
  · right
    rw [h2]
    have h8 : 2 ^ w.bits - 1 > 2 ^ (w.bits - 1) := by
      rcases w.pow_bits with ⟨_, h6, h7⟩ | ⟨_, h6, h7⟩ <;> omega
    simp only [ne_eq, not_true, and_false, if_false, h8, if_true]
    refine ⟨?_, by simp⟩
    intro h; apply h1
    refine ⟨h.1, h.2.1, ?_⟩
    omega

/-- `ParseInt` on a string without a minus sign, `ds` being what follows its
optional plus sign: the value of `ds` when `ds` is a non-empty run of digits of
value below `2 ^ (bits - 1)`, an error otherwise. -/
theorem ParseInt_nonneg (w : IntSize) (l ds : List Char) (hl : l ≠ [])
    (hneg : l.head? ≠ some '-')
    (hds : (if l.head? = some '+' ∨ l.head? = some '-' then l.tail else l) = ds) :
    ((ds ≠ [] ∧ ds.all isDecDigit = true ∧ digitsValue ds < 2 ^ (w.bits - 1)) ∧
      ParseInt w l = ((digitsValue ds : Int), none)) ∨
    (¬ (ds ≠ [] ∧ ds.all isDecDigit = true ∧ digitsValue ds < 2 ^ (w.bits - 1)) ∧
      (ParseInt w l).2 ≠ none) := by
  simp only [ParseInt, hl, hds, if_false]
  simp only [hneg, if_false, not_false_eq_true, true_and, false_and]
  rcases ParseUint_cases w ds with ⟨⟨h1, h2, h3⟩, h4⟩ | ⟨h1, h2 | h2⟩
  · rw [h4]
    simp only [ne_eq, not_true, false_and, if_false]
    by_cases h5 : digitsValue ds ≥ 2 ^ (w.bits - 1)
    · right
      simp only [h5, if_true]
      exact ⟨by omega, by simp⟩
    · left
      simp only [h5, if_false]
      refine ⟨⟨h1, h2, by omega⟩, ?_⟩
      rw [wrapInt64_natCast]
      rcases w.pow_bits with ⟨_, _, h6⟩ | ⟨_, _, h6⟩ <;> omega
  · right
    rw [h2]
    refine ⟨?_, by simp⟩
    intro h; apply h1
    refine ⟨h.1, h.2.1, ?_⟩
    rcases w.pow_bits with ⟨_, h6, h7⟩ | ⟨_, h6, h7⟩ <;> omega
  · right
    rw [h2]
    have h8 : 2 ^ w.bits - 1 ≥ 2 ^ (w.bits - 1) := by
      rcases w.pow_bits with ⟨_, h6, h7⟩ | ⟨_, h6, h7⟩ <;> omega
    simp only [ne_eq, not_true, and_false, if_false, h8, if_true]
    refine ⟨?_, by simp⟩
    intro h; apply h1
    refine ⟨h.1, h.2.1, ?_⟩
    omega

/-- `ParseInt` returns the integer a literal denotes when that integer fits
the platform `int`, and an error on every other string. -/
theorem ParseInt_spec (w : IntSize) (s : String) :
    ((IsIntLiteral s ∧ fitsInt w (literalValue s)) ∧
      ParseInt w s.data = (literalValue s, none)) ∨
    (¬ (IsIntLiteral s ∧ fitsInt w (literalValue s)) ∧ (ParseInt w s.data).2 ≠ none) := by
  obtain ⟨l⟩ := s
  cases l with
  | nil => right; simp [IsIntLiteral, literalDigits, ParseInt]
  | cons c cs =>
    by_cases hm : c = '-'
    · subst hm
      have hv : literalValue ⟨'-' :: cs⟩ = -(digitsValue cs : Int) := by
        simp [literalValue, literalDigits]
      have hl : literalDigits ⟨'-' :: cs⟩ = cs := by simp [literalDigits]
      simp only [IsIntLiteral, fitsInt, hv, hl]
      rcases ParseInt_minus w cs with ⟨⟨h1, h2, h3⟩, h4⟩ | ⟨h1, h2⟩
      · left
        refine ⟨⟨⟨h1, h2⟩, ?_, ?_⟩, h4⟩
        · have : ((digitsValue cs : Nat) : Int) ≤ ((2 ^ (w.bits - 1) : Nat) : Int) :=
            Int.ofNat_le.mpr h3
          push_cast at this
          omega
        · have : (0 : Int) < 2 ^ (w.bits - 1) := by positivity
          omega
      · right
        refine ⟨?_, h2⟩
        rintro ⟨⟨h3, h4⟩, h5, _⟩
        apply h1
        refine ⟨h3, h4, ?_⟩
        have : ((digitsValue cs : Nat) : Int) ≤ ((2 ^ (w.bits - 1) : Nat) : Int) := by
          push_cast; omega
        exact Int.ofNat_le.mp this
    · have hneg : (c :: cs).head? ≠ some '-' := by simpa using hm
      have hds : (if (c :: cs).head? = some '+' ∨ (c :: cs).head? = some '-' then (c :: cs).tail
          else c :: cs) = literalDigits ⟨c :: cs⟩ := by
        simp [literalDigits]
      have hv : literalValue ⟨c :: cs⟩ = (digitsValue (literalDigits ⟨c :: cs⟩) : Int) := by
        simp [literalValue, hm]
      simp only [IsIntLiteral, fitsInt, hv]
      rcases ParseInt_nonneg w (c :: cs) _ (by simp) hneg hds with ⟨⟨h1, h2, h3⟩, h4⟩ | ⟨h1, h2⟩
      · left
        refine ⟨⟨⟨h1, h2⟩, ?_, ?_⟩, h4⟩
        · have : (0 : Int) < 2 ^ (w.bits - 1) := by positivity
          omega
        · have : ((digitsValue (literalDigits ⟨c :: cs⟩) : Nat) : Int) <
              ((2 ^ (w.bits - 1) : Nat) : Int) := Int.ofNat_lt.mpr h3
          push_cast at this
          omega
      · right
        refine ⟨?_, h2⟩
        rintro ⟨⟨h3, h4⟩, _, h5⟩
        apply h1
        refine ⟨h3, h4, ?_⟩
        have : ((digitsValue (literalDigits ⟨c :: cs⟩) : Nat) : Int) <
            ((2 ^ (w.bits - 1) : Nat) : Int) := by
          push_cast; omega
        exact Int.ofNat_lt.mp this

/-- A string has at least one byte for each of its code points. -/
theorem length_le_utf8ByteSize (s : String) : s.data.length ≤ s.utf8ByteSize := by
  obtain ⟨l⟩ := s
  simp only [String.utf8ByteSize]
  induction l with
  | nil => simp [String.utf8ByteSize.go]
  | cons c cs ih =>
    have := Char.utf8Size_pos c
    simp only [String.utf8ByteSize.go, List.length_cons]
    omega

/-- The fast loop of `Atoi` from zero, on a run short enough for the platform. -/
theorem atoiFastLoop_zero (w : IntSize) (ds : List Char)
    (hb : 10 ^ ds.length ≤ 2 ^ (w.bits - 1)) :
    atoiFastLoop w ds 0 =
      if ds.all isDecDigit = true then some (digitsValue ds : Int) else none := by
  have h := atoiFastLoop_eq w ds 0 (by simpa using hb)
  simpa [digitsValue] using h

/-- The guard of the fast path of `Atoi` bounds the number of code points so
that no run of digits of that length can overflow. -/
theorem fast_guard_bound (w : IntSize) (s : String)
    (h : (w.bits = 32 ∧ (0 < s.utf8ByteSize ∧ s.utf8ByteSize < 10)) ∨
      (w.bits = 64 ∧ (0 < s.utf8ByteSize ∧ s.utf8ByteSize < 19)))
    (ds : List Char) (hds : ds.length ≤ s.data.length) :
    10 ^ ds.length ≤ 2 ^ (w.bits - 1) := by
  have hlen := length_le_utf8ByteSize s
  rcases h with ⟨hw, _, h2⟩ | ⟨hw, _, h2⟩
  · rw [hw]
    calc 10 ^ ds.length ≤ 10 ^ 9 := Nat.pow_le_pow_right (by norm_num) (by omega)
      _ ≤ 2 ^ (32 - 1) := by norm_num
  · rw [hw]
    calc 10 ^ ds.length ≤ 10 ^ 18 := Nat.pow_le_pow_right (by norm_num) (by omega)
      _ ≤ 2 ^ (64 - 1) := by norm_num

/-- `Atoi` returns the integer a literal denotes when that integer fits the
platform `int`, and an error on every other string. -/
theorem Atoi_spec (w : IntSize) (s : String) :
    ((IsIntLiteral s ∧ fitsInt w (literalValue s)) ∧ Atoi w s = (literalValue s, none)) ∨
    (¬ (IsIntLiteral s ∧ fitsInt w (literalValue s)) ∧ (Atoi w s).2 ≠ none) := by
  by_cases hfast : (w.bits = 32 ∧ (0 < s.utf8ByteSize ∧ s.utf8ByteSize < 10)) ∨
      (w.bits = 64 ∧ (0 < s.utf8ByteSize ∧ s.utf8ByteSize < 19))
  · have hbound := fast_guard_bound w s hfast
    have hpos : 0 < s.utf8ByteSize := by
      rcases hfast with ⟨_, h, _⟩ | ⟨_, h, _⟩ <;> exact h
    simp only [Atoi, hfast, if_true]
    obtain ⟨l⟩ := s
    cases l with
    | nil => simp [String.utf8ByteSize, String.utf8ByteSize.go] at hpos
    | cons c cs =>
      by_cases hsign : c = '-' ∨ c = '+'
      · have hl : literalDigits ⟨c :: cs⟩ = cs := by
          rcases hsign with h | h <;> simp [literalDigits, h]
        have hb := hbound cs (by simp)
        have hloop := atoiFastLoop_zero w cs hb
        simp only [List.head?, Option.some.injEq, hsign, if_true, List.tail, true_and, hloop]
        by_cases hcs : cs = []
        · right
          subst hcs
          simp [IsIntLiteral, hl]
        · have hlen : ¬ cs.length < 1 := by
            have := List.length_pos.mpr hcs
            omega
          by_cases hall : cs.all isDecDigit = true
          · have hv := digitsValueFrom_lt cs 0 hall
            have hv2 : digitsValue cs + 1 ≤ 2 ^ (w.bits - 1) := by
              simp only [digitsValue]; omega
            have hv3 : ((digitsValue cs + 1 : Nat) : Int) ≤ ((2 ^ (w.bits - 1) : Nat) : Int) :=
              Int.ofNat_le.mpr hv2
            push_cast at hv3
            left
            simp only [hlen, if_false, hall, if_true]
            by_cases hm : c = '-'
            · have hval : literalValue ⟨c :: cs⟩ = -(digitsValue cs : Int) := by
                simp only [literalValue, hl]; simp [hm]
              have hfit : fitsInt w (-(digitsValue cs : Int)) := by
                constructor <;> omega
              rw [hval]
              refine ⟨⟨⟨by rw [hl]; exact hcs, by rw [hl]; exact hall⟩, hfit⟩, ?_⟩
              simp only [hm, if_true, wrapInt_of_fitsInt w _ hfit]
            · have hval : literalValue ⟨c :: cs⟩ = (digitsValue cs : Int) := by
                simp only [literalValue, hl]; simp [hm]
              have hfit : fitsInt w (digitsValue cs : Int) := by
                constructor <;> omega
              rw [hval]
              refine ⟨⟨⟨by rw [hl]; exact hcs, by rw [hl]; exact hall⟩, hfit⟩, ?_⟩
              simp only [hm, if_false]
          · right
            simp only [hlen, if_false, hall]
            exact ⟨fun h => hall (by simpa [hl] using h.1.2), by simp⟩
      · have hl : literalDigits ⟨c :: cs⟩ = c :: cs := by
          simp only [literalDigits]
          rw [if_neg (by tauto)]
        have hm : c ≠ '-' := fun h => hsign (Or.inl h)
        have hval : literalValue ⟨c :: cs⟩ = (digitsValue (c :: cs) : Int) := by
          simp only [literalValue, hl]; simp [hm]
        have hb := hbound (c :: cs) (by simp)
        have hloop := atoiFastLoop_zero w (c :: cs) hb
        have hp : c ≠ '+' := fun h => hsign (Or.inr h)
        simp only [List.head?, Option.some.injEq, hm, hp, or_self, false_and, if_false, hloop]
        by_cases hall : (c :: cs).all isDecDigit = true
        · have hv := digitsValueFrom_lt (c :: cs) 0 hall
          have hv2 : digitsValue (c :: cs) + 1 ≤ 2 ^ (w.bits - 1) := by
            simp only [digitsValue]; omega
          have hv3 : ((digitsValue (c :: cs) + 1 : Nat) : Int) ≤
              ((2 ^ (w.bits - 1) : Nat) : Int) := Int.ofNat_le.mpr hv2
          push_cast at hv3
          have hfit : fitsInt w (digitsValue (c :: cs) : Int) := by
            constructor <;> omega
          left
          rw [hval]
          refine ⟨⟨⟨by rw [hl]; simp, by rw [hl]; exact hall⟩, hfit⟩, ?_⟩
          simp only [hall, if_true]
        · right
          simp only [hall]
          exact ⟨fun h => hall (by simpa [hl] using h.1.2), by simp⟩
  · simp only [Atoi, hfast, if_false]
    rcases ParseInt_spec w s with ⟨⟨h1, h2⟩, h3⟩ | ⟨h1, h2⟩
    · left
      refine ⟨⟨h1, h2⟩, ?_⟩
      rw [h3, wrapInt_of_fitsInt w _ h2]
    · right
      exact ⟨h1, h2⟩

/-- The integer accessor on a present variable: the integer its value denotes
when the value is a literal that fits the platform `int`, else the default. -/
theorem getEnvAsInt_eq (w : IntSize) (env : Env) (key s : String) (d : Int)
    (h : LookupEnv env key = some s) :
    getEnvAsInt w env key d =
      if IsIntLiteral s ∧ fitsInt w (literalValue s) then literalValue s else d := by
  rw [getEnvAsInt_of_some w env key s d h]
  by_cases hs : s = ""
  · subst hs
    have : ¬ (IsIntLiteral "" ∧ fitsInt w (literalValue "")) := by
      intro h2
      exact h2.1.1 rfl
    rw [if_pos rfl, if_neg this]
  · rw [if_neg hs]
    rcases Atoi_spec w s with ⟨h1, h2⟩ | ⟨h1, h2⟩
    · rw [if_pos h1, h2]
      simp
    · rw [if_neg h1, if_pos h2]

/-! ## The integer accessor: theorems -/

/-- C8: `getEnvAsInt` returns the default when the variable is absent, when its
value is empty, and when its value is not a base-10 signed integer literal
(an optional sign, then one or more decimal digits, nothing else) whose value
fits the platform `int`; otherwise it returns the integer the value denotes.
With the default 5432: `not-a-number` and the empty string give 5432, `15432`
gives 15432, and the well-formed but out-of-range `9223372036854775808` gives
5432 on 64-bit. -/
theorem getEnvAsInt_spec (w : IntSize) (env : Env) (key : String) (d : Int) :
    (LookupEnv env key = none → getEnvAsInt w env key d = d) ∧
    (LookupEnv env key = some "" → getEnvAsInt w env key d = d) ∧
    (∀ s, LookupEnv env key = some s → ¬ (IsIntLiteral s ∧ fitsInt w (literalValue s)) →
      getEnvAsInt w env key d = d) ∧
    (∀ s, LookupEnv env key = some s → IsIntLiteral s → fitsInt w (literalValue s) →
      getEnvAsInt w env key d = literalValue s) ∧
    getEnvAsInt w (Env.ofList [("DB_PORT", "not-a-number")]) "DB_PORT" 5432 = 5432 ∧
    getEnvAsInt w (Env.ofList [("DB_PORT", "")]) "DB_PORT" 5432 = 5432 ∧
    getEnvAsInt w (Env.ofList [("DB_PORT", "15432")]) "DB_PORT" 5432 = 15432 ∧
    (IsIntLiteral "9223372036854775808" ∧
      getEnvAsInt .bits64 (Env.ofList [("DB_PORT", "9223372036854775808")]) "DB_PORT" 5432 =
        5432) := by
  refine ⟨getEnvAsInt_of_none w env key d, ?_, ?_, ?_, ?_, ?_, ?_, ?_⟩
  · intro h
    rw [getEnvAsInt_of_some w env key "" d h, if_pos rfl]
  · intro s h hn
    rw [getEnvAsInt_eq w env key s d h, if_neg hn]
  · intro s h h1 h2
    rw [getEnvAsInt_eq w env key s d h, if_pos ⟨h1, h2⟩]
  · cases w <;> decide
  · cases w <;> decide
  · cases w <;> decide
  · decide

/-- Witness of C8: DB_PORT=15432 is a literal that fits, DB_PORT=not-a-number
is not a literal. -/
theorem getEnvAsInt_spec_witness :
    getEnvAsInt .bits32 (Env.ofList [("DB_PORT", "15432")]) "DB_PORT" 5432 = literalValue "15432" ∧
    literalValue "15432" = 15432 ∧
    getEnvAsInt .bits32 (Env.ofList [("DB_PORT", "not-a-number")]) "DB_PORT" 5432 = 5432 :=
  ⟨(getEnvAsInt_spec .bits32 (Env.ofList [("DB_PORT", "15432")]) "DB_PORT" 5432).2.2.2.1
      "15432" (by decide) (by decide) (by decide),
    by decide,
    (getEnvAsInt_spec .bits32 (Env.ofList [("DB_PORT", "not-a-number")]) "DB_PORT" 5432).2.2.1
      "not-a-number" (by decide) (by decide)⟩

/-! ## The decimal representation of an integer is a literal that denotes it -/

/-- The character of a decimal digit. -/
theorem digitChar_toNat (k : Nat) (h : k < 10) : (Nat.digitChar k).toNat = 48 + k := by
  interval_cases k <;> rfl

/-- The digits `Nat.toDigitsCore` puts in front of `ds` are decimal digits, and
they continue to `n` what `ds` continues from `n`. -/
theorem toDigitsCore_spec (fuel n : Nat) (ds : List Char) (h : n < fuel) :
    (Nat.toDigitsCore 10 fuel n ds).all isDecDigit = ds.all isDecDigit ∧
    digitsValueFrom (Nat.toDigitsCore 10 fuel n ds) 0 = digitsValueFrom ds n ∧
    Nat.toDigitsCore 10 fuel n ds ≠ [] := by
  induction fuel generalizing n ds with
  | zero => omega
  | succ fuel ih =>
    have hmod : n % 10 < 10 := Nat.mod_lt _ (by norm_num)
    have hch := digitChar_toNat (n % 10) hmod
    have hdig : isDecDigit (Nat.digitChar (n % 10)) = true := by
      simp only [isDecDigit, decide_eq_true_eq]; omega
    simp only [Nat.toDigitsCore]
    by_cases h0 : n / 10 = 0
    · simp only [h0, if_true, List.all_cons, hdig, Bool.true_and, digitsValueFrom, hch]
      refine ⟨trivial, ?_, by simp⟩
      congr 1
      omega
    · simp only [h0, if_false]
      obtain ⟨h1, h2, h3⟩ := ih (n / 10) (Nat.digitChar (n % 10) :: ds) (by omega)
      refine ⟨?_, ?_, h3⟩
      · rw [h1]; simp only [List.all_cons, hdig, Bool.true_and]
      · rw [h2]; simp only [digitsValueFrom, hch]
        congr 1
        omega

/-- The decimal representation of a natural number is a non-empty run of
decimal digits that denotes it. -/
theorem toDigits_spec (n : Nat) :
    (Nat.toDigits 10 n).all isDecDigit = true ∧ digitsValue (Nat.toDigits 10 n) = n ∧
    Nat.toDigits 10 n ≠ [] := by
  obtain ⟨h1, h2, h3⟩ := toDigitsCore_spec (n + 1) n [] (by omega)
  exact ⟨by simpa [Nat.toDigits] using h1, by simpa [Nat.toDigits, digitsValue, digitsValueFrom] using h2,
    by simpa [Nat.toDigits] using h3⟩

/-- A run of decimal digits has no sign: as a string it is its own digits. -/
theorem literalDigits_of_digits (ds : List Char) (h : ds.all isDecDigit = true) :
    literalDigits ⟨ds⟩ = ds ∧ (String.mk ds).data.head? ≠ some '-' := by
  cases ds with
  | nil => simp [literalDigits]
  | cons c cs =>
    simp only [List.all_cons, Bool.and_eq_true] at h
    have hc : 48 ≤ c.toNat ∧ c.toNat ≤ 57 := by simpa [isDecDigit] using h.1
    have hp : c ≠ '+' := by rintro rfl; revert hc; decide
    have hm : c ≠ '-' := by rintro rfl; revert hc; decide
    simp [literalDigits, hp, hm]

/-- The decimal representation of an integer is a literal that denotes it. -/
theorem toString_isIntLiteral (n : Int) :
    IsIntLiteral (toString n) ∧ literalValue (toString n) = n := by
  cases n with
  | ofNat m =>
    obtain ⟨h1, h2, h3⟩ := toDigits_spec m
    obtain ⟨h4, h5⟩ := literalDigits_of_digits _ h1
    have hs : toString (Int.ofNat m) = ⟨Nat.toDigits 10 m⟩ := rfl
    rw [hs]
    refine ⟨⟨by rw [h4]; exact h3, by rw [h4]; exact h1⟩, ?_⟩
    simp only [literalValue, h5, if_false, h4, h2]
    rfl
  | negSucc m =>
    obtain ⟨h1, h2, h3⟩ := toDigits_spec (m + 1)
    have hs : toString (Int.negSucc m) = ⟨'-' :: Nat.toDigits 10 (m + 1)⟩ := rfl
    have hl : literalDigits ⟨'-' :: Nat.toDigits 10 (m + 1)⟩ = Nat.toDigits 10 (m + 1) := by
      simp [literalDigits]
    rw [hs]
    refine ⟨⟨by rw [hl]; exact h3, by rw [hl]; exact h1⟩, ?_⟩
    simp only [literalValue, hl, h2, List.head?, if_true]
    rfl

/-! ## Expiration: theorems -/

/-- The expiration of a loaded record is the 64-bit product of the integer
read from JWT_EXPIRATION and one second. -/
theorem LoadConfig_ok_expiration (w : IntSize) (env : Env) (c : Config)
    (h : LoadConfig w env = .ok c) :
    c.JWT.Expiration =
      wrapInt 64 (wrapInt 64 (getEnvAsInt w env "JWT_EXPIRATION" 86400) * Second) := by
  obtain ⟨_, hc⟩ := (LoadConfig_eq_ok_iff w env c).mp h
  subst hc
  rfl

/-- A number of seconds between -9223372036 and 9223372036 is promoted to its
number of nanoseconds without overflow. -/
theorem seconds_no_overflow (n : Int) (h1 : -9223372036 ≤ n) (h2 : n ≤ 9223372036) :
    wrapInt 64 (wrapInt 64 n * Second) = n * 1000000000 := by
  simp only [wrapInt, Second]
  norm_num
  omega

/-- Counterexample to C9 as stated: on 64-bit, JWT_EXPIRATION=9223372037 is
the decimal representation of 9223372037, the load succeeds, and the
expiration is not 9223372037 seconds but the wrapped, negative product. -/
theorem LoadConfig_expiration_overflow :
    LookupEnv envExpirationHuge "JWT_EXPIRATION" = some "9223372037" ∧
    IsIntLiteral "9223372037" ∧ literalValue "9223372037" = 9223372037 ∧
    toString (9223372037 : Int) = "9223372037" ∧
    LoadConfig .bits64 envExpirationHuge = .ok (assemble .bits64 envExpirationHuge) ∧
    (assemble .bits64 envExpirationHuge).JWT.Expiration = -9223372036709551616 ∧
    (assemble .bits64 envExpirationHuge).JWT.Expiration ≠ 9223372037 * 1000000000 := by
  decide

/-- C9 (amended): on a successful load, when JWT_EXPIRATION is set to a decimal
literal that denotes an integer `n` (its decimal representation in
particular) which fits the platform `int` and lies between -9223372036 and
9223372036, the expiration is exactly `n` seconds (`n * 10 ^ 9` nanoseconds);
when JWT_EXPIRATION is absent it is exactly 86400 seconds. -/
theorem LoadConfig_expiration_seconds (w : IntSize) (env : Env) (c : Config)
    (h : LoadConfig w env = .ok c) :
    (∀ (s : String) (n : Int), LookupEnv env "JWT_EXPIRATION" = some s → IsIntLiteral s →
      literalValue s = n → fitsInt w n → -9223372036 ≤ n → n ≤ 9223372036 →
      c.JWT.Expiration = n * 1000000000) ∧
    (∀ n : Int, LookupEnv env "JWT_EXPIRATION" = some (toString n) → fitsInt w n →
      -9223372036 ≤ n → n ≤ 9223372036 → c.JWT.Expiration = n * 1000000000) ∧
    (LookupEnv env "JWT_EXPIRATION" = none → c.JWT.Expiration = 86400 * 1000000000) := by
  rw [LoadConfig_ok_expiration w env c h]
  have key : ∀ (s : String) (n : Int), LookupEnv env "JWT_EXPIRATION" = some s →
      IsIntLiteral s → literalValue s = n → fitsInt w n → -9223372036 ≤ n → n ≤ 9223372036 →
      wrapInt 64 (wrapInt 64 (getEnvAsInt w env "JWT_EXPIRATION" 86400) * Second) =
        n * 1000000000 := by
    intro s n hs hlit hval hfit h1 h2
    subst hval
    rw [getEnvAsInt_eq w env "JWT_EXPIRATION" s 86400 hs, if_pos ⟨hlit, hfit⟩]
    exact seconds_no_overflow _ h1 h2
  refine ⟨key, ?_, ?_⟩
  · intro n hs hfit h1 h2
    exact key (toString n) n hs (toString_isIntLiteral n).1 (toString_isIntLiteral n).2 hfit h1 h2
  · intro hs
    rw [getEnvAsInt_of_none w env "JWT_EXPIRATION" 86400 hs]
    exact seconds_no_overflow 86400 (by norm_num) (by norm_num)

/-- Witness of C9 (amended): JWT_EXPIRATION=60 yields 60 seconds. -/
theorem LoadConfig_expiration_seconds_witness :
    LoadConfig .bits64 envExpiration60 = .ok (assemble .bits64 envExpiration60) ∧
    (assemble .bits64 envExpiration60).JWT.Expiration = 60 * 1000000000 :=
  ⟨by decide,
    (LoadConfig_expiration_seconds .bits64 envExpiration60 (assemble .bits64 envExpiration60)
      (by decide)).2.1 60 (by decide) (by decide) (by decide) (by decide)⟩

/-- Counterexample to C10 as stated: JWT_EXPIRATION=-1 loads, with an
expiration of minus one second. -/
theorem LoadConfig_expiration_negative :
    LoadConfig .bits64 envExpirationNegative = .ok (assemble .bits64 envExpirationNegative) ∧
    (assemble .bits64 envExpirationNegative).JWT.Expiration = -1000000000 ∧
    (assemble .bits64 envExpirationNegative).JWT.Expiration < 0 := by
  decide

/-- C10 (amended): on a successful load the expiration is non-negative when
JWT_EXPIRATION is absent, when its value is not an integer literal that fits
the platform `int`, and when its value is a literal that denotes an integer
between 0 and 9223372036. -/
theorem LoadConfig_expiration_nonneg (w : IntSize) (env : Env) (c : Config)
    (h : LoadConfig w env = .ok c) :
    (LookupEnv env "JWT_EXPIRATION" = none → 0 ≤ c.JWT.Expiration) ∧
    (∀ s, LookupEnv env "JWT_EXPIRATION" = some s →
      ¬ (IsIntLiteral s ∧ fitsInt w (literalValue s)) → 0 ≤ c.JWT.Expiration) ∧
    (∀ s, LookupEnv env "JWT_EXPIRATION" = some s → IsIntLiteral s → 0 ≤ literalValue s →
      literalValue s ≤ 9223372036 → 0 ≤ c.JWT.Expiration) := by
  rw [LoadConfig_ok_expiration w env c h]
  have hdef : (0 : Int) ≤ wrapInt 64 (wrapInt 64 86400 * Second) := by decide
  refine ⟨?_, ?_, ?_⟩
  · intro hs
    rw [getEnvAsInt_of_none w env "JWT_EXPIRATION" 86400 hs]
    exact hdef
  · intro s hs hn
    rw [getEnvAsInt_eq w env "JWT_EXPIRATION" s 86400 hs, if_neg hn]
    exact hdef
  · intro s hs hlit h1 h2
    rw [getEnvAsInt_eq w env "JWT_EXPIRATION" s 86400 hs]
    by_cases hfit : fitsInt w (literalValue s)
    · rw [if_pos ⟨hlit, hfit⟩, seconds_no_overflow _ (by omega) h2]
      omega
    · rw [if_neg (fun hh => hfit hh.2)]
      exact hdef

/-- Witness of C10 (amended): JWT_EXPIRATION=60 gives a non-negative
expiration. -/
theorem LoadConfig_expiration_nonneg_witness :
    (0 : Int) ≤ (assemble .bits32 envExpiration60).JWT.Expiration :=
  (LoadConfig_expiration_nonneg .bits32 envExpiration60 (assemble .bits32 envExpiration60)
    (by decide)).2.2 "60" (by decide) (by decide) (by decide) (by decide)

/-! ## Validation and loading: what is and is not checked -/

/-- C11: the outcome of validation depends on the five required fields only:
two records that agree on `Database.Host`, `Database.User`,
`Database.DBName`, `JWT.AccessSecret` and `JWT.RefreshSecret` get the same
result from `validateConfig`; hence an environment that sets the five required
variables to non-empty strings loads, whatever SERVER_PORT, APP_ENV, DB_PORT,
DB_PASSWORD, DB_SSL_MODE and JWT_EXPIRATION are. -/
theorem validateConfig_required_only (w : IntSize) (env : Env) :
    (∀ c1 c2 : Config, c1.Database.Host = c2.Database.Host →
      c1.Database.User = c2.Database.User → c1.Database.DBName = c2.Database.DBName →
      c1.JWT.AccessSecret = c2.JWT.AccessSecret → c1.JWT.RefreshSecret = c2.JWT.RefreshSecret →
      validateConfig c1 = validateConfig c2) ∧
    (∀ host user name access refresh : String,
      LookupEnv env "DB_HOST" = some host → LookupEnv env "DB_USER" = some user →
      LookupEnv env "DB_NAME" = some name → LookupEnv env "JWT_SECRET" = some access →
      LookupEnv env "REFRESH_SECRET" = some refresh →
      host ≠ "" → user ≠ "" → name ≠ "" → access ≠ "" → refresh ≠ "" →
      LoadConfig w env = .ok (assemble w env)) := by
  constructor
  · intro c1 c2 h1 h2 h3 h4 h5
    simp only [validateConfig, h1, h2, h3, h4, h5]
  · intro host user name access refresh hHost hUser hName hAccess hRefresh h1 h2 h3 h4 h5
    rw [LoadConfig_eq_ok_iff]
    refine ⟨(validateConfig_none_iff _).mpr ?_, rfl⟩
    simp only [assemble, getEnv_of_some _ _ _ _ hHost, getEnv_of_some _ _ _ _ hUser,
      getEnv_of_some _ _ _ _ hName, getEnv_of_some _ _ _ _ hAccess,
      getEnv_of_some _ _ _ _ hRefresh]
    exact ⟨h1, h2, h3, h4, h5⟩

/-- Witness of C11: scenario S4 (DB_PORT=abc, JWT_EXPIRATION=xyz) loads with
database port 5432 and an expiration of 86400 seconds, and two records that
differ in every optional field are validated alike. -/
theorem validateConfig_required_only_witness :
    LoadConfig .bits64 envGarbage = .ok (assemble .bits64 envGarbage) ∧
    (assemble .bits64 envGarbage).Database.Port = 5432 ∧
    (assemble .bits64 envGarbage).JWT.Expiration = 86400 * 1000000000 ∧
    validateConfig sampleConfig = validateConfig sampleOtherOptional :=
  ⟨(validateConfig_required_only .bits64 envGarbage).2 "db" "u" "pulse" "a" "b" (by decide)
      (by decide) (by decide) (by decide) (by decide) (by decide) (by decide) (by decide)
      (by decide) (by decide),
    by decide, by decide,
    (validateConfig_required_only .bits64 envGarbage).1 sampleConfig sampleOtherOptional
      (by decide) (by decide) (by decide) (by decide) (by decide)⟩

/-- C13: `Validate` is the validation routine of the loader: it returns what
`validateConfig` returns on every record, and `LoadConfig` fails exactly when
`Validate` fails on the record assembled from the environment, with the same
message (and succeeds, returning that record, exactly when `Validate` accepts
it). -/
theorem Validate_eq_validateConfig (w : IntSize) (env : Env) :
    (∀ c : Config, c.Validate = validateConfig c) ∧
    (∀ m : String, LoadConfig w env = .error m ↔ (assemble w env).Validate = some m) ∧
    ((∃ m : String, LoadConfig w env = .error m) ↔ (assemble w env).Validate ≠ none) ∧
    (∀ c : Config, LoadConfig w env = .ok c ↔
      (assemble w env).Validate = none ∧ c = assemble w env) := by
  refine ⟨fun _ => rfl, fun m => LoadConfig_eq_error_iff w env m, ?_,
    fun c => LoadConfig_eq_ok_iff w env c⟩
  simp only [LoadConfig_eq_error_iff, Config.Validate]
  cases validateConfig (assemble w env) <;> simp

/-- The string accessor returns the empty string exactly when the variable is
set to the empty string, or is absent with an empty default. -/
theorem getEnv_eq_empty_iff (env : Env) (key d : String) :
    getEnv env key d = "" ↔
      LookupEnv env key = some "" ∨ (LookupEnv env key = none ∧ d = "") := by
  cases h : LookupEnv env key with
  | none => simp [getEnv, h]
  | some v => simp [getEnv, h]

/-- Loading fails exactly when the assembled record is rejected. -/
theorem LoadConfig_fails_iff_validate (w : IntSize) (env : Env) :
    (∃ m : String, LoadConfig w env = .error m) ↔ validateConfig (assemble w env) ≠ none := by
  simp only [LoadConfig_eq_error_iff]
  cases validateConfig (assemble w env) <;> simp

/-- C15: `LoadConfig` fails if and only if DB_HOST, DB_USER or DB_NAME is set to
the empty string, or JWT_SECRET or REFRESH_SECRET is absent or empty.  Leaving
DB_HOST, DB_USER or DB_NAME unset causes no failure: the field takes its
non-empty default (`localhost`, `pulse_dev`, `pulse`), its check passes, and
with the two secrets filled the load succeeds; leaving JWT_SECRET or
REFRESH_SECRET unset always fails. -/
theorem LoadConfig_fails_iff (w : IntSize) (env : Env) :
    ((∃ m : String, LoadConfig w env = .error m) ↔
      (LookupEnv env "DB_HOST" = some "" ∨ LookupEnv env "DB_USER" = some "" ∨
        LookupEnv env "DB_NAME" = some "" ∨
        (LookupEnv env "JWT_SECRET" = none ∨ LookupEnv env "JWT_SECRET" = some "") ∨
        (LookupEnv env "REFRESH_SECRET" = none ∨ LookupEnv env "REFRESH_SECRET" = some ""))) ∧
    (LookupEnv env "DB_HOST" = none →
      (assemble w env).Database.Host = "localhost" ∧
        LoadConfig w env ≠ .error "DB_HOST is required") ∧
    (LookupEnv env "DB_USER" = none →
      (assemble w env).Database.User = "pulse_dev" ∧
        LoadConfig w env ≠ .error "DB_USER is required") ∧
    (LookupEnv env "DB_NAME" = none →
      (assemble w env).Database.DBName = "pulse" ∧
        LoadConfig w env ≠ .error "DB_NAME is required") ∧
    (∀ access refresh : String, LookupEnv env "DB_HOST" = none →
      LookupEnv env "DB_USER" = none → LookupEnv env "DB_NAME" = none →
      LookupEnv env "JWT_SECRET" = some access → LookupEnv env "REFRESH_SECRET" = some refresh →
      access ≠ "" → refresh ≠ "" → LoadConfig w env = .ok (assemble w env)) ∧
    (LookupEnv env "JWT_SECRET" = none → ∃ m : String, LoadConfig w env = .error m) ∧
    (LookupEnv env "REFRESH_SECRET" = none → ∃ m : String, LoadConfig w env = .error m) := by
  have hHost : ("localhost" : String) ≠ "" := by decide
  have hUser : ("pulse_dev" : String) ≠ "" := by decide
  have hName : ("pulse" : String) ≠ "" := by decide
  have key : (∃ m : String, LoadConfig w env = .error m) ↔
      (LookupEnv env "DB_HOST" = some "" ∨ LookupEnv env "DB_USER" = some "" ∨
        LookupEnv env "DB_NAME" = some "" ∨
        (LookupEnv env "JWT_SECRET" = none ∨ LookupEnv env "JWT_SECRET" = some "") ∨
        (LookupEnv env "REFRESH_SECRET" = none ∨ LookupEnv env "REFRESH_SECRET" = some "")) := by
    rw [LoadConfig_fails_iff_validate, ne_eq, validateConfig_none_iff]
    simp only [assemble, ne_eq, getEnv_eq_empty_iff, hHost, hUser, hName, and_false, or_false,
      and_true]
    tauto
  refine ⟨key, ?_, ?_, ?_, ?_, ?_, ?_⟩
  · intro h
    refine ⟨getEnv_of_none _ _ _ h, ?_⟩
    rw [ne_eq, LoadConfig_eq_error_iff]
    simp only [validateConfig, assemble, getEnv_of_none _ _ _ h, hHost, if_false]
    split_ifs <;> simp
  · intro h
    refine ⟨getEnv_of_none _ _ _ h, ?_⟩
    rw [ne_eq, LoadConfig_eq_error_iff]
    simp only [validateConfig, assemble, getEnv_of_none _ _ _ h]
    split_ifs <;> simp
  · intro h
    refine ⟨getEnv_of_none _ _ _ h, ?_⟩
    rw [ne_eq, LoadConfig_eq_error_iff]
    simp only [validateConfig, assemble, getEnv_of_none _ _ _ h]
    split_ifs <;> simp
  · intro access refresh h1 h2 h3 h4 h5 h6 h7
    rw [LoadConfig_eq_ok_iff]
    refine ⟨(validateConfig_none_iff _).mpr ?_, rfl⟩
    simp only [assemble, getEnv_of_none _ _ _ h1, getEnv_of_none _ _ _ h2,
      getEnv_of_none _ _ _ h3, getEnv_of_some _ _ _ _ h4, getEnv_of_some _ _ _ _ h5]
    exact ⟨hHost, hUser, hName, h6, h7⟩
  · intro h
    exact key.mpr (Or.inr (Or.inr (Or.inr (Or.inl (Or.inl h)))))
  · intro h
    exact key.mpr (Or.inr (Or.inr (Or.inr (Or.inr (Or.inl h)))))

/-- Witness of C15: with only the two secrets set the load succeeds on the
defaults of the three database variables; with nothing set it fails. -/
theorem LoadConfig_fails_iff_witness :
    LoadConfig .bits64 envSecretsOnly = .ok (assemble .bits64 envSecretsOnly) ∧
    (assemble .bits64 envSecretsOnly).Database.Host = "localhost" ∧
    (∃ m : String, LoadConfig .bits64 envNone = .error m) :=
  ⟨(LoadConfig_fails_iff .bits64 envSecretsOnly).2.2.2.2.1 "a" "b" (by decide) (by decide)
      (by decide) (by decide) (by decide) (by decide) (by decide),
    ((LoadConfig_fails_iff .bits64 envSecretsOnly).2.1 (by decide)).1,
    (LoadConfig_fails_iff .bits64 envNone).2.2.2.2.2.1 (by decide)⟩

/-! ## Letter case and the environment predicates: theorems -/

/-- When the character mapping lower-cases ASCII as `unicode.ToLower` does, the
two paths of `ToLower` agree: the result is the string with every character
lower-cased. -/
theorem ToLower_eq_foldCase (unicodeToLower : Char → Char) (h : LowersASCII unicodeToLower)
    (s : String) : ToLower unicodeToLower s = foldCase unicodeToLower s := by
  unfold ToLower foldCase
  split
  · rename_i hall
    congr 1
    apply List.map_congr_left
    intro c hc
    have hlt : c.toNat < 0x80 := by
      have := List.all_eq_true.mp hall c hc
      simpa using this
    rw [h c hlt]
    rfl
  · rfl

/-- The literal `development` is its own lower-case form. -/
theorem ToLower_development (unicodeToLower : Char → Char) :
    ToLower unicodeToLower "development" = "development" := by
  rfl

/-- The literal `staging` is its own lower-case form. -/
theorem ToLower_staging (unicodeToLower : Char → Char) :
    ToLower unicodeToLower "staging" = "staging" := by
  rfl

/-- The lower-case form of `PRODUCTION`. -/
theorem ToLower_PRODUCTION (unicodeToLower : Char → Char) :
    ToLower unicodeToLower "PRODUCTION" = "production" := by
  rfl

/-- The empty string is its own lower-case form. -/
theorem ToLower_empty (unicodeToLower : Char → Char) :
    ToLower unicodeToLower "" = "" := by
  rfl

/-- C12: `IsProduction` is true if and only if the lower-cased `Server.Env` is
`production`, and `IsDevelopment` if and only if it is `development` (the
lower-cased value being the one `strings.ToLower` returns, which is the string
with every character lower-cased).  `PRODUCTION` is production and not
development, `staging` is neither, and a record loaded with APP_ENV unset is
development. -/
theorem IsProduction_IsDevelopment_iff (unicodeToLower : Char → Char) (c : Config) :
    (c.IsProduction unicodeToLower = true ↔ ToLower unicodeToLower c.Server.Env = "production") ∧
    (c.IsDevelopment unicodeToLower = true ↔
      ToLower unicodeToLower c.Server.Env = "development") ∧
    (LowersASCII unicodeToLower →
      (c.IsProduction unicodeToLower = true ↔
        foldCase unicodeToLower c.Server.Env = "production") ∧
      (c.IsDevelopment unicodeToLower = true ↔
        foldCase unicodeToLower c.Server.Env = "development")) ∧
    (c.Server.Env = "PRODUCTION" →
      c.IsProduction unicodeToLower = true ∧ c.IsDevelopment unicodeToLower = false) ∧
    (c.Server.Env = "staging" →
      c.IsProduction unicodeToLower = false ∧ c.IsDevelopment unicodeToLower = false) ∧
    (∀ (w : IntSize) (env : Env), LoadConfig w env = .ok c → LookupEnv env "APP_ENV" = none →
      c.IsDevelopment unicodeToLower = true) := by
  refine ⟨by simp [Config.IsProduction], by simp [Config.IsDevelopment], ?_, ?_, ?_, ?_⟩
  · intro h
    simp [Config.IsProduction, Config.IsDevelopment, ToLower_eq_foldCase unicodeToLower h]
  · intro h
    simp only [Config.IsProduction, Config.IsDevelopment, h, ToLower_PRODUCTION]
    decide
  · intro h
    simp only [Config.IsProduction, Config.IsDevelopment, h, ToLower_staging]
    decide
  · intro w env hc hEnv
    obtain ⟨_, hc⟩ := (LoadConfig_eq_ok_iff w env c).mp hc
    subst hc
    simp only [Config.IsDevelopment, assemble, getEnv_of_none _ _ _ hEnv, ToLower_development]
    decide

/-- Witness of C12: the sample record labelled `PRODUCTION` is production and
not development, and the record loaded from scenario S1, which leaves APP_ENV
unset, is development. -/
theorem IsProduction_IsDevelopment_iff_witness :
    ((sampleWithEnv "PRODUCTION").IsProduction asciiLower = true ∧
      (sampleWithEnv "PRODUCTION").IsDevelopment asciiLower = false) ∧
    ((sampleWithEnv "staging").IsProduction asciiLower = false ∧
      (sampleWithEnv "staging").IsDevelopment asciiLower = false) ∧
    (assemble .bits64 envMinimal).IsDevelopment asciiLower = true ∧
    ((sampleWithEnv "PRODUCTION").IsProduction asciiLower = true ↔
      foldCase asciiLower (sampleWithEnv "PRODUCTION").Server.Env = "production") :=
  ⟨(IsProduction_IsDevelopment_iff asciiLower (sampleWithEnv "PRODUCTION")).2.2.2.1 (by decide),
    (IsProduction_IsDevelopment_iff asciiLower (sampleWithEnv "staging")).2.2.2.2.1 (by decide),
    (IsProduction_IsDevelopment_iff asciiLower (assemble .bits64 envMinimal)).2.2.2.2.2
      .bits64 envMinimal (by decide) (by decide),
    ((IsProduction_IsDevelopment_iff asciiLower (sampleWithEnv "PRODUCTION")).2.2.1
      (fun _ _ => rfl)).1⟩

/-- C16: `IsProduction` and `IsDevelopment` are never both true; both are false
on some records, such as those labelled `staging` or labelled with the empty
string. -/
theorem IsProduction_IsDevelopment_exclusive (unicodeToLower : Char → Char) (c : Config) :
    ¬ (c.IsProduction unicodeToLower = true ∧ c.IsDevelopment unicodeToLower = true) ∧
    (c.Server.Env = "staging" →
      c.IsProduction unicodeToLower = false ∧ c.IsDevelopment unicodeToLower = false) ∧
    (c.Server.Env = "" →
      c.IsProduction unicodeToLower = false ∧ c.IsDevelopment unicodeToLower = false) := by
  refine ⟨?_, ?_, ?_⟩
  · rintro ⟨h1, h2⟩
    simp only [Config.IsProduction, Config.IsDevelopment, decide_eq_true_eq] at h1 h2
    rw [h1] at h2
    revert h2
    decide
  · intro h
    simp only [Config.IsProduction, Config.IsDevelopment, h, ToLower_staging]
    decide
  · intro h
    simp only [Config.IsProduction, Config.IsDevelopment, h, ToLower_empty]
    decide

/-- Witness of C16: the sample records labelled `staging` and labelled with the
empty string are neither production nor development. -/
theorem IsProduction_IsDevelopment_exclusive_witness :
    ((sampleWithEnv "staging").IsProduction id = false ∧
      (sampleWithEnv "staging").IsDevelopment id = false) ∧
    ((sampleWithEnv "").IsProduction id = false ∧ (sampleWithEnv "").IsDevelopment id = false) :=
  ⟨(IsProduction_IsDevelopment_exclusive id (sampleWithEnv "staging")).2.1 (by decide),
    (IsProduction_IsDevelopment_exclusive id (sampleWithEnv "")).2.2 (by decide)⟩

/-! ## The boolean accessor: theorems -/

/-- The boolean accessor in terms of the lower-cased string it switches on. -/
theorem getEnvAsBool_eq (unicodeToLower : Char → Char) (env : Env) (key : String) (d : Bool)
    (t : String) (ht : ToLower unicodeToLower (getEnv env key (FormatBool d)) = t) :
    getEnvAsBool unicodeToLower env key d =
      if t = "true" ∨ t = "1" ∨ t = "yes" ∨ t = "on" then true
      else if t = "false" ∨ t = "0" ∨ t = "no" ∨ t = "off" then false
      else d := by
  simp only [getEnvAsBool, ht]

/-- The lower-case forms of the two strings `FormatBool` returns. -/
theorem ToLower_FormatBool (unicodeToLower : Char → Char) (d : Bool) :
    ToLower unicodeToLower (FormatBool d) = FormatBool d := by
  cases d <;> rfl

/-- The boolean accessor on a present variable whose lower-cased value is `t`. -/
theorem getEnvAsBool_of_some (unicodeToLower : Char → Char) (env : Env) (key v : String)
    (d : Bool) (h : LookupEnv env key = some v) :
    (ToLower unicodeToLower v = "true" ∨ ToLower unicodeToLower v = "1" ∨
        ToLower unicodeToLower v = "yes" ∨ ToLower unicodeToLower v = "on" →
      getEnvAsBool unicodeToLower env key d = true) ∧
    (ToLower unicodeToLower v = "false" ∨ ToLower unicodeToLower v = "0" ∨
        ToLower unicodeToLower v = "no" ∨ ToLower unicodeToLower v = "off" →
      getEnvAsBool unicodeToLower env key d = false) ∧
    (¬ (ToLower unicodeToLower v = "true" ∨ ToLower unicodeToLower v = "1" ∨
        ToLower unicodeToLower v = "yes" ∨ ToLower unicodeToLower v = "on" ∨
        ToLower unicodeToLower v = "false" ∨ ToLower unicodeToLower v = "0" ∨
        ToLower unicodeToLower v = "no" ∨ ToLower unicodeToLower v = "off") →
      getEnvAsBool unicodeToLower env key d = d) := by
  have hg : ToLower unicodeToLower (getEnv env key (FormatBool d)) = ToLower unicodeToLower v := by
    rw [getEnv_of_some env key _ v h]
  rw [getEnvAsBool_eq unicodeToLower env key d _ hg]
  refine ⟨fun ht => if_pos ht, ?_, ?_⟩
  · intro hf
    have hnt : ¬ (ToLower unicodeToLower v = "true" ∨ ToLower unicodeToLower v = "1" ∨
        ToLower unicodeToLower v = "yes" ∨ ToLower unicodeToLower v = "on") := by
      rcases hf with hf | hf | hf | hf <;> rw [hf] <;> decide
    rw [if_neg hnt, if_pos hf]
  · intro hn
    rw [if_neg (fun ht => hn (by tauto)), if_neg (fun hf => hn (by tauto))]

/-- C14: `getEnvAsBool` returns true when the value of the variable is one of
`true`, `1`, `yes`, `on` ignoring letter case (that is, once lower-cased),
false when it is one of `false`, `0`, `no`, `off` ignoring letter case, and the
default for every other value, the empty string included, and when the
variable is absent. -/
theorem getEnvAsBool_spec (unicodeToLower : Char → Char) (env : Env) (key : String)
    (d : Bool) :
    (LookupEnv env key = none → getEnvAsBool unicodeToLower env key d = d) ∧
    (LookupEnv env key = some "" → getEnvAsBool unicodeToLower env key d = d) ∧
    (∀ v, LookupEnv env key = some v →
      (ToLower unicodeToLower v = "true" ∨ ToLower unicodeToLower v = "1" ∨
        ToLower unicodeToLower v = "yes" ∨ ToLower unicodeToLower v = "on") →
      getEnvAsBool unicodeToLower env key d = true) ∧
    (∀ v, LookupEnv env key = some v →
      (ToLower unicodeToLower v = "false" ∨ ToLower unicodeToLower v = "0" ∨
        ToLower unicodeToLower v = "no" ∨ ToLower unicodeToLower v = "off") →
      getEnvAsBool unicodeToLower env key d = false) ∧
    (∀ v, LookupEnv env key = some v →
      ¬ (ToLower unicodeToLower v = "true" ∨ ToLower unicodeToLower v = "1" ∨
        ToLower unicodeToLower v = "yes" ∨ ToLower unicodeToLower v = "on" ∨
        ToLower unicodeToLower v = "false" ∨ ToLower unicodeToLower v = "0" ∨
        ToLower unicodeToLower v = "no" ∨ ToLower unicodeToLower v = "off") →
      getEnvAsBool unicodeToLower env key d = d) ∧
    (LowersASCII unicodeToLower → ∀ v, LookupEnv env key = some v →
      ((foldCase unicodeToLower v = "true" ∨ foldCase unicodeToLower v = "1" ∨
          foldCase unicodeToLower v = "yes" ∨ foldCase unicodeToLower v = "on") →
        getEnvAsBool unicodeToLower env key d = true) ∧
      ((foldCase unicodeToLower v = "false" ∨ foldCase unicodeToLower v = "0" ∨
          foldCase unicodeToLower v = "no" ∨ foldCase unicodeToLower v = "off") →
        getEnvAsBool unicodeToLower env key d = false) ∧
      (¬ (foldCase unicodeToLower v = "true" ∨ foldCase unicodeToLower v = "1" ∨
          foldCase unicodeToLower v = "yes" ∨ foldCase unicodeToLower v = "on" ∨
          foldCase unicodeToLower v = "false" ∨ foldCase unicodeToLower v = "0" ∨
          foldCase unicodeToLower v = "no" ∨ foldCase unicodeToLower v = "off") →
        getEnvAsBool unicodeToLower env key d = d)) := by
  refine ⟨?_, ?_, ?_, ?_, ?_, ?_⟩
  · intro h
    have hg : ToLower unicodeToLower (getEnv env key (FormatBool d)) = FormatBool d := by
      rw [getEnv_of_none env key _ h, ToLower_FormatBool]
    rw [getEnvAsBool_eq unicodeToLower env key d _ hg]
    cases d <;> decide
  · intro h
    refine (getEnvAsBool_of_some unicodeToLower env key "" d h).2.2 ?_
    rw [ToLower_empty]
    decide
  · intro v h ht
    exact (getEnvAsBool_of_some unicodeToLower env key v d h).1 ht
  · intro v h hf
    exact (getEnvAsBool_of_some unicodeToLower env key v d h).2.1 hf
  · intro v h hn
    exact (getEnvAsBool_of_some unicodeToLower env key v d h).2.2 hn
  · intro hl v h
    have hs := getEnvAsBool_of_some unicodeToLower env key v d h
    rw [ToLower_eq_foldCase unicodeToLower hl v] at hs
    exact hs

/-- Witness of C14: `TRUE` reads as true and `Off` as false whatever the
default, `maybe` and the empty string read as the default. -/
theorem getEnvAsBool_spec_witness :
    getEnvAsBool asciiLower (Env.ofList [("DEBUG", "TRUE")]) "DEBUG" false = true ∧
    getEnvAsBool asciiLower (Env.ofList [("DEBUG", "Off")]) "DEBUG" true = false ∧
    getEnvAsBool asciiLower (Env.ofList [("DEBUG", "maybe")]) "DEBUG" true = true ∧
    getEnvAsBool asciiLower (Env.ofList [("DEBUG", "")]) "DEBUG" false = false ∧
    getEnvAsBool asciiLower envNone "DEBUG" true = true ∧
    getEnvAsBool asciiLower (Env.ofList [("DEBUG", "yEs")]) "DEBUG" false = true :=
  ⟨(getEnvAsBool_spec asciiLower (Env.ofList [("DEBUG", "TRUE")]) "DEBUG" false).2.2.1
      "TRUE" (by decide) (by decide),
    (getEnvAsBool_spec asciiLower (Env.ofList [("DEBUG", "Off")]) "DEBUG" true).2.2.2.1
      "Off" (by decide) (by decide),
    (getEnvAsBool_spec asciiLower (Env.ofList [("DEBUG", "maybe")]) "DEBUG" true).2.2.2.2.1
      "maybe" (by decide) (by decide),
    (getEnvAsBool_spec asciiLower (Env.ofList [("DEBUG", "")]) "DEBUG" false).2.1 (by decide),
    (getEnvAsBool_spec asciiLower envNone "DEBUG" true).1 (by decide),
    ((getEnvAsBool_spec asciiLower (Env.ofList [("DEBUG", "yEs")]) "DEBUG" false).2.2.2.2.2
      (fun _ _ => rfl) "yEs" (by decide)).1 (by decide)⟩

end Pulse
